import Mathlib

/-!
Shallow embedding of the safety-governed batch engine of
`src/services/whatsapp.service.js` and `src/services/storage.service.js`.

Conventions used throughout:
* timestamps and calendar dates are natural numbers (seconds / opaque day codes);
* the wall clock is passed explicitly: each admission gets one observation
  (`AdmissionEnv`) and each loop iteration gets one observation (`ItemEnv`),
  mirroring the `new Date()` calls in the source, with one hour value per
  iteration;
* `Math.random()` draws are explicit rational parameters in `[0,1)`;
* the external messaging client (`saveContactThenAdd`) is abstracted by a
  per-item outcome: success, a failure with an error-message string, or an
  unexpected exception that escapes the per-item `try` and is converted by the
  outer catch;
* the on-disk `batches.json` record is modelled by `Store`, which also keeps
  the log of every batch-record write performed by `saveSessionStats`;
* purely cosmetic effects of the source (log lines, the `results.batch`
  progress sub-object, `estimatedCompletion`, and the sleeps that carry no
  state change) are omitted; the sleeps of the per-item failure handler are
  kept because the claims speak about them.
-/

namespace WhatsAppGM

/-- `true` iff `needle` occurs as a contiguous run inside the second list
(JavaScript `String.prototype.includes`). -/
def containsSeq (needle : List Char) : List Char → Bool
  | [] => needle.isEmpty
  | c :: rest => needle.isPrefixOf (c :: rest) || containsSeq needle rest

/-- Ban-indicative error classification, `whatsapp.service.js` lines 700-707. -/
def isBanRelated (msg : String) : Bool :=
  containsSeq ("not-authorized".data) msg.data ||
  containsSeq ("forbidden".data) msg.data ||
  containsSeq ("denied".data) msg.data ||
  containsSeq ("blocked".data) msg.data ||
  containsSeq ("spam".data) msg.data ||
  containsSeq ("limit".data) msg.data ||
  containsSeq ("banned".data) msg.data

/-- The test `/^\d+@g\.us$/.test(groupId)` (newer group-id format, no hyphen),
`whatsapp.service.js` line 545. -/
def isModernGroupId (s : String) : Bool :=
  !(s.data.takeWhile Char.isDigit).isEmpty &&
  s.data.dropWhile Char.isDigit == ("@g.us".data)

/-- The test `/^\d+-\d+@g\.us$/` (traditional hyphenated group-id format),
`whatsapp.service.js` line 328: a non-empty digit run, a hyphen, a non-empty
digit run, then exactly `@g.us`. -/
def isLegacyGroupId (s : String) : Bool :=
  let r1 := s.data.dropWhile Char.isDigit
  !(s.data.takeWhile Char.isDigit).isEmpty &&
  (r1.head? == some '-') &&
  !(r1.tail.takeWhile Char.isDigit).isEmpty &&
  (r1.tail.dropWhile Char.isDigit == ("@g.us".data))

/-- Result of `validatePhoneNumber` (`whatsapp.service.js` lines 219-249). -/
structure PhoneValidation where
  isValid : Bool
  reason : String
  formatted : Option String
deriving DecidableEq

/-- `validatePhoneNumber`: strip non-digits, length check, all-zeros check,
format as `<digits>@c.us`. -/
def validatePhoneNumber (number : String) : PhoneValidation :=
  let stripped := number.data.filter Char.isDigit
  if stripped.length < 10 || stripped.length > 15 then
    ⟨false, ("Invalid length. Must be 10-15 digits."), none⟩
  else if stripped.all (· == '0') then
    ⟨false, ("Number contains only zeros"), none⟩
  else
    ⟨true, ("Valid number"), some (String.mk stripped ++ ("@c.us"))⟩

/-- Record kept per failed number by `updateFailedNumber`
(`whatsapp.service.js` lines 1026-1046). -/
structure FailRecord where
  count : Nat
  firstFailure : Nat
  lastFailure : Nat
  reason : String
deriving DecidableEq

/-- The in-memory `sessionStats` object of `storage.service.js` (lines 18-43),
which the WhatsApp service reads through `getSessionStats()` and mutates in
place. `failedNumbers` is the JS `Map` as an insertion-ordered association
list. -/
structure SessionStats where
  addedToday : Nat
  lastDateReset : Nat
  hourlyAdditionCounts : List Nat
  circuitBreakerTripped : Bool
  circuitBreakerResetTime : Option Nat
  isAddingMembers : Bool
  userStatus : String
  consecutiveFailures : Nat
  failedNumbers : List (String × FailRecord)
  currentBatch : List String
  currentBatchIndex : Nat
  lastGroupId : Option String
  minDelay : Nat
  maxDelay : Nat
  dailyLimit : Nat
  maxBatchSize : Nat
  batchCooldown : Nat
  failureThreshold : Nat
  circuitBreakerTimeout : Nat
  hourlyLimit : Nat
  patternVariation : Bool
deriving DecidableEq

/-- The batch record written to `data/batches.json`
(`saveSessionStats`, `storage.service.js` lines 202-209). -/
structure BatchRecord where
  currentBatch : List String
  currentBatchIndex : Nat
  lastGroupId : Option String
deriving DecidableEq

/-- The durable side of the store that the claims talk about: the current
content of `batches.json` (`none` = file absent) plus the log of every
batch-record write performed during the modelled run. -/
structure Store where
  batchFile : Option BatchRecord
  writes : List BatchRecord
deriving DecidableEq

/-- `saveSessionStats` (`storage.service.js` lines 185-213) restricted to its
effect on `batches.json`: the batch record is (re)written only while
`currentBatch` is non-empty; the stats and failed-numbers files are not
modelled. -/
def saveSessionStats (s : SessionStats) (st : Store) : Store :=
  if s.currentBatch.length > 0 then
    let b : BatchRecord := ⟨s.currentBatch, s.currentBatchIndex, s.lastGroupId⟩
    ⟨some b, st.writes ++ [b]⟩
  else st

/-- `clearBatchData` of `whatsapp.service.js` (lines 1049-1059): deletes
`batches.json`. -/
def clearBatchData (st : Store) : Store :=
  { st with batchFile := none }

/-- `loadBatchData` (`storage.service.js` lines 155-180): installs a persisted
batch into the in-memory state when the file holds a non-empty batch. -/
def loadBatchData (file : Option BatchRecord) (s : SessionStats) : SessionStats :=
  match file with
  | some b =>
    if b.currentBatch.length > 0 then
      { s with currentBatch := b.currentBatch,
               currentBatchIndex := b.currentBatchIndex,
               lastGroupId := b.lastGroupId }
    else s
  | none => s

/-- `checkHourlyLimit` (`whatsapp.service.js` lines 972-976), with the hour
observation passed explicitly. -/
def checkHourlyLimit (s : SessionStats) (hour : Nat) : Bool :=
  decide (s.hourlyLimit ≤ s.hourlyAdditionCounts.getD hour 0)

/-- `updateHourlyCount` (`whatsapp.service.js` lines 979-984): bump the current
hour's counter and persist. -/
def updateHourlyCount (s : SessionStats) (hour : Nat) (st : Store) :
    SessionStats × Store :=
  let s' := { s with hourlyAdditionCounts :=
    s.hourlyAdditionCounts.set hour (s.hourlyAdditionCounts.getD hour 0 + 1) }
  (s', saveSessionStats s' st)

/-- `resetCircuitBreaker` (`whatsapp.service.js` lines 1016-1023). -/
def resetCircuitBreaker (s : SessionStats) (st : Store) : SessionStats × Store :=
  let s' := { s with circuitBreakerTripped := false,
                     circuitBreakerResetTime := none,
                     consecutiveFailures := 0 }
  (s', saveSessionStats s' st)

/-- `checkCircuitBreaker` (`whatsapp.service.js` lines 987-1013). A `null`
reset time is read as epoch 0, as `new Date(null)` does. Returns the blocking
answer together with the updated state and store. -/
def checkCircuitBreaker (now : Nat) (s : SessionStats) (st : Store) :
    Bool × SessionStats × Store :=
  if s.circuitBreakerTripped then
    if s.circuitBreakerResetTime.getD 0 < now then
      let (s', st') := resetCircuitBreaker s st
      (false, s', st')
    else (true, s, st)
  else if s.failureThreshold ≤ s.consecutiveFailures then
    let s' := { s with circuitBreakerTripped := true,
                       circuitBreakerResetTime := some (now + s.circuitBreakerTimeout) }
    (true, s', saveSessionStats s' st)
  else (false, s, st)

/-- `getSmartDelay` (`whatsapp.service.js` lines 255-296) in seconds, with the
four `Math.random()` draws passed explicitly as rationals in `[0,1)`.
The returned millisecond value of the source is this times 1000. -/
def getSmartDelaySec (s : SessionStats) (hour : Nat)
    (rBase rPat rBranch rLong : ℚ) : ℤ :=
  let base : ℤ := Int.floor (rBase * ((s.maxDelay : ℚ) - (s.minDelay : ℚ) + 1) + (s.minDelay : ℚ))
  let m1 : ℚ := if 1 ≤ hour ∧ hour ≤ 4 then 1.5 else 1
  let progress : ℚ := (s.addedToday : ℚ) / (s.dailyLimit : ℚ)
  let m2 : ℚ := if progress > 0.7 then m1 * (1 + (progress - 0.7)) else m1
  let m3 : ℚ := if 0 < s.consecutiveFailures then
                  m2 * (1 + (s.consecutiveFailures : ℚ) * 0.1)
                else m2
  let m4 : ℚ := if s.patternVariation then
                  if rPat < 0.15 then
                    if rBranch < 0.7 then m3 * (1.5 + rLong) else m3 * 0.7
                  else m3
                else m3
  Int.floor ((base : ℚ) * m4)

/-- `getSmartDelay`'s returned value in milliseconds. -/
def getSmartDelay (s : SessionStats) (hour : Nat)
    (rBase rPat rBranch rLong : ℚ) : ℤ :=
  getSmartDelaySec s hour rBase rPat rBranch rLong * 1000

/-- `updateFailedNumber`'s upsert on the failed-number map
(`whatsapp.service.js` lines 1026-1046), preserving JS `Map` insertion order. -/
def upsertFail (key : String) (now : Nat) (reason : String) :
    List (String × FailRecord) → List (String × FailRecord)
  | [] => [(key, ⟨1, now, now, reason⟩)]
  | (k, r) :: rest =>
    if k = key then
      (k, { r with count := r.count + 1, lastFailure := now, reason := reason }) :: rest
    else (k, r) :: upsertFail key now reason rest

/-- Outcome of one `saveContactThenAdd` call (the external messaging client):
success, or an error carrying the message text the source classifies. -/
inductive ItemOutcome where
  | ok
  | err (msg : String)
deriving DecidableEq

/-- Environment of one iteration of the per-item loop: the wall-clock
observations of that iteration, the random draw used by the ban cooldown,
whether an unexpected exception escapes the per-item `try` this iteration
(`raises`), and the add outcome otherwise. -/
structure ItemEnv where
  hour : Nat
  newHour : Nat
  now : Nat
  rBan : ℚ
  raises : Option String
  outcome : ItemOutcome
deriving DecidableEq

/-- The sleeps performed by the per-item failure handler: the extended
ban cooldown (`300 + Math.random()*300` seconds, line 732) and the
failure backoff (`Math.min(60 + consecutiveFailures*30, 300)` seconds,
line 758). -/
inductive SleepEvent where
  | banCooldown (secs : ℚ)
  | failureBackoff (secs : Nat)
deriving DecidableEq

/-- Output of the failure handler: updated state and store, the sleeps it
performed, and whether it returned early (ban-cascade trip). -/
structure FailOut where
  state : SessionStats
  store : Store
  sleeps : List SleepEvent
  earlyReturn : Bool
deriving DecidableEq

/-- The `catch` block of the per-item loop (`whatsapp.service.js` lines
697-760), minus the detail/counter bookkeeping on `results`, which the caller
performs: increment `consecutiveFailures`, record the failed number, then
either (ban-indicative) sleep the extended cooldown and — when
`consecutiveFailures ≥ 3` — trip the circuit breaker, persist and return
early, or fall through to the failure backoff sleep. Note the fall-through:
a ban-indicative failure that does not return early also performs the
failure-backoff sleep of line 758. -/
def handleFailure (number msg : String) (now : Nat) (rBan : ℚ)
    (s : SessionStats) (st : Store) : FailOut :=
  let ban := isBanRelated msg
  let s1 := { s with consecutiveFailures := s.consecutiveFailures + 1 }
  let v := validatePhoneNumber number
  let formatted := v.formatted.getD (number ++ ("@c.us"))
  let s2 := { s1 with failedNumbers := upsertFail formatted now msg s1.failedNumbers }
  let st1 := saveSessionStats s2 st
  if ban then
    let cool := SleepEvent.banCooldown (300 + rBan * 300)
    if 3 ≤ s2.consecutiveFailures then
      let s3 := { s2 with circuitBreakerTripped := true,
                          circuitBreakerResetTime := some (now + s2.circuitBreakerTimeout) }
      ⟨s3, saveSessionStats s3 st1, [cool], true⟩
    else
      ⟨s2, st1, [cool, .failureBackoff (min (60 + s2.consecutiveFailures * 30) 300)], false⟩
  else
    ⟨s2, st1, [.failureBackoff (min (60 + s2.consecutiveFailures * 30) 300)], false⟩

/-- One entry of `results.details`. -/
structure Detail where
  number : String
  status : String
  reason : String
deriving DecidableEq

/-- The `results` object built by `addMembersToGroup` (lines 585-597), without
the cosmetic `batch` progress sub-object. -/
structure Results where
  success : Bool
  added : Nat
  failed : Nat
  skipped : Nat
  details : List Detail
  message : Option String
deriving DecidableEq

/-- The initial `results` object. -/
def initResults : Results := ⟨true, 0, 0, 0, [], none⟩

/-- Outcome of one loop iteration: `ret` models a `return` out of
`addMembersToGroup` (the `finally` block still runs afterwards), `next`
models falling through to the next index. -/
inductive StepOut where
  | ret (s : SessionStats) (res : Results) (st : Store)
  | next (s : SessionStats) (res : Results) (st : Store)
deriving DecidableEq

/-- The state component of a step outcome. -/
def StepOut.state : StepOut → SessionStats
  | .ret s _ _ => s
  | .next s _ _ => s

/-- The results component of a step outcome. -/
def StepOut.res : StepOut → Results
  | .ret _ r _ => r
  | .next _ r _ => r

/-- The store component of a step outcome. -/
def StepOut.store : StepOut → Store
  | .ret _ _ st => st
  | .next _ _ st => st

/-- Whether the step returned out of the loop. -/
def StepOut.isRet : StepOut → Bool
  | .ret _ _ _ => true
  | .next _ _ _ => false

/-- The circuit-breaker re-check after each item (`whatsapp.service.js`
lines 763-772). -/
def afterItemBreakerCheck (now : Nat) (s : SessionStats) (res : Results)
    (st : Store) : StepOut :=
  let cb := checkCircuitBreaker now s st
  if cb.1 then
    .ret cb.2.1
      { res with success := false,
                 message := some ("Operation paused due to too many consecutive failures.") }
      (saveSessionStats cb.2.1 cb.2.2)
  else
    .next cb.2.1 res cb.2.2

/-- One iteration of the per-item loop (`whatsapp.service.js` lines 610-772):
persist the cursor, then the daily re-check (skip, continue), the hourly
re-check (skip, wait, zero the new hour's counter, continue), then the add
attempt with its success path (lines 671-696) or the failure handler, then
the circuit-breaker re-check. `raises` short-circuits to the outer catch
(lines 799-809), which converts the exception into a partial result. The
batch-cooldown sleep and the inter-item smart delay change no state and are
not recorded. -/
def processItem (num : String) (i : Nat) (env : ItemEnv)
    (s : SessionStats) (res : Results) (st : Store) : StepOut :=
  let s0 := { s with currentBatchIndex := i }
  let st0 := saveSessionStats s0 st
  match env.raises with
  | some m =>
    .ret s0
      { res with success := false, message := some (("Unexpected error: ") ++ m) } st0
  | none =>
    if s0.dailyLimit ≤ s0.addedToday then
      .next s0
        { res with skipped := res.skipped + 1,
                   details := res.details ++ [⟨num, ("skipped"), ("Daily limit reached")⟩] } st0
    else if checkHourlyLimit s0 env.hour then
      let s1 := { s0 with hourlyAdditionCounts := s0.hourlyAdditionCounts.set env.newHour 0 }
      .next s1
        { res with skipped := res.skipped + 1,
                   details := res.details ++ [⟨num, ("skipped"), ("Hourly limit reached")⟩] } st0
    else
      match env.outcome with
      | .ok =>
        let s1 := { s0 with addedToday := s0.addedToday + 1 }
        let u := updateHourlyCount s1 env.hour st0
        let s2 := { u.1 with consecutiveFailures := 0 }
        let st1 := saveSessionStats s2 u.2
        let res1 :=
          { res with added := res.added + 1,
                     details := res.details ++
                       [⟨num, ("added"), ("Successfully saved contact and added to group")⟩] }
        afterItemBreakerCheck env.now s2 res1 st1
      | .err msg =>
        let res1 :=
          { res with failed := res.failed + 1,
                     details := res.details ++ [⟨num, ("failed"), msg⟩] }
        let hf := handleFailure num msg env.now env.rBan s0 st0
        if hf.earlyReturn then
          .ret hf.state
            { res1 with success := false,
                        message := some ("Operation paused due to potential ban risk.") }
            hf.store
        else
          afterItemBreakerCheck env.now hf.state res1 hf.store

/-- Output of the whole per-item loop: whether it ran to the end, and the
final state, results and store. -/
structure LoopOut where
  completed : Bool
  state : SessionStats
  results : Results
  store : Store
deriving DecidableEq

/-- The `for` loop of `addMembersToGroup` (lines 610-773), modelled as
structural recursion over the still-unprocessed suffix of the batch, with `i`
the absolute index of the head of that suffix. -/
def runLoop (envf : Nat → ItemEnv) :
    List String → Nat → SessionStats → Results → Store → LoopOut
  | [], _, s, res, st => ⟨true, s, res, st⟩
  | num :: rest, i, s, res, st =>
    match processItem num i (envf i) s res st with
    | .ret s' res' st' => ⟨false, s', res', st'⟩
    | .next s' res' st' => runLoop envf rest (i + 1) s' res' st'

/-- Lines 599-606: reuse the stored cursor when resuming (same group and a
non-empty stored batch), else start from index 0. -/
def initBatchState (groupId : String) (numbers : List String)
    (s : SessionStats) : SessionStats :=
  if s.currentBatch.length > 0 ∧ s.lastGroupId = some groupId then
    { s with currentBatch := numbers }
  else
    { s with currentBatch := numbers, currentBatchIndex := 0 }

/-- Output of the admitted phase of `addMembersToGroup`. -/
structure RunOut where
  results : Results
  state : SessionStats
  store : Store
deriving DecidableEq

/-- The `finally` block (lines 810-814): clear `isAddingMembers`, restore
`userStatus`, persist. -/
def finallyStep (s : SessionStats) (res : Results) (st : Store) : RunOut :=
  let s' := { s with isAddingMembers := false, userStatus := ("ready") }
  ⟨res, s', saveSessionStats s' st⟩

/-- The admitted phase of `addMembersToGroup` (lines 581-814): set the
processing flag, initialise or resume the batch, run the loop, on normal
completion send the best-effort greeting (no state effect) and clean up the
finished batch (lines 785-793), and run the `finally` block on every path. -/
def runBatchPhase (groupId : String) (numbers : List String)
    (envf : Nat → ItemEnv) (s : SessionStats) (st : Store) : RunOut :=
  let s1 := { s with isAddingMembers := true, userStatus := ("adding") }
  let s2 := initBatchState groupId numbers s1
  let lo := runLoop envf (numbers.drop s2.currentBatchIndex) s2.currentBatchIndex s2 initResults st
  if lo.completed then
    let cleaned :=
      if lo.state.currentBatch.length > 0 ∧
         lo.state.currentBatch.length - 1 ≤ lo.state.currentBatchIndex then
        ({ lo.state with currentBatch := [], currentBatchIndex := 0, lastGroupId := none },
         clearBatchData lo.store)
      else (lo.state, lo.store)
    finallyStep cleaned.1 lo.results cleaned.2
  else
    finallyStep lo.state lo.results lo.store

/-- What a call to `addMembersToGroup` returns: either one of the bare
admission rejections (`{success:false, message}`) or the full results object
of an admitted run. -/
inductive BatchOut where
  | rejected (message : String)
  | completed (res : Results)
deriving DecidableEq

/-- Wall-clock observations and external-client answers used by the admission
sequence: the current date code, timestamp and hour, whether the group
verification call succeeds, and — for the legacy path — whether the fetched
chat `isGroup`. -/
structure AdmissionEnv where
  today : Nat
  now : Nat
  hour : Nat
  verifyOk : Bool
  chatIsGroup : Bool
deriving DecidableEq

/-- Full output of a call to `addMembersToGroup`. -/
structure CallOut where
  outcome : BatchOut
  state : SessionStats
  store : Store
deriving DecidableEq

/-- The admission gates after the day-rollover reset (lines 509-579 and
onward): circuit breaker, hourly and daily checks, then the
format-dependent group verification (modern ids proceed on a failed
verification after bumping `consecutiveFailures`; others are rejected),
then the admitted phase. -/
def admissionAfterDay (env : AdmissionEnv) (envf : Nat → ItemEnv)
    (groupId : String) (numbers : List String)
    (s : SessionStats) (st : Store) : CallOut :=
  let cb := checkCircuitBreaker env.now s st
  if cb.1 then
    ⟨.rejected ("Protection mode active due to too many failures."), cb.2.1, cb.2.2⟩
  else
    let sA := cb.2.1
    let stA := cb.2.2
    if checkHourlyLimit sA env.hour then
      ⟨.rejected ("Hourly limit reached."), sA, stA⟩
    else if sA.dailyLimit ≤ sA.addedToday then
      ⟨.rejected ("Daily limit reached."), sA, stA⟩
    else if isModernGroupId groupId then
      let sB := if env.verifyOk then sA
                else { sA with consecutiveFailures := sA.consecutiveFailures + 1 }
      let out := runBatchPhase groupId numbers envf sB stA
      ⟨.completed out.results, out.state, out.store⟩
    else
      if env.verifyOk then
        if env.chatIsGroup then
          let out := runBatchPhase groupId numbers envf sA stA
          ⟨.completed out.results, out.state, out.store⟩
        else ⟨.rejected ("Provided ID is not a group"), sA, stA⟩
      else
        ⟨.rejected ("Invalid group ID or group not found"),
         { sA with consecutiveFailures := sA.consecutiveFailures + 1 }, stA⟩

/-- `addMembersToGroup` (lines 494-815): the mutual-exclusion check and the
day-rollover reset (lines 497-507), then the remaining admission gates and
the admitted phase. -/
def addMembersToGroup (env : AdmissionEnv) (envf : Nat → ItemEnv)
    (groupId : String) (numbers : List String)
    (s : SessionStats) (st : Store) : CallOut :=
  if s.isAddingMembers then
    ⟨.rejected ("Already adding members to a group"), s, st⟩
  else if s.lastDateReset ≠ env.today then
    let s' := { s with addedToday := 0,
                       hourlyAdditionCounts := List.replicate 24 0,
                       lastDateReset := env.today }
    admissionAfterDay env envf groupId numbers s' (saveSessionStats s' st)
  else
    admissionAfterDay env envf groupId numbers s st

/-! ## Example data used by concrete witnesses and counterexamples -/

/-- A fresh session state with the default configuration of
`storage.service.js` lines 18-43. -/
def baseStats : SessionStats :=
  ⟨0, 0, List.replicate 24 0, false, none, false, ("ready"), 0, [], [], 0, none,
   30, 90, 20000, 1000, 300, 10, 1800, 1000, true⟩

/-- An iteration environment at a given hour whose add attempt succeeds. -/
def envOkAt (h : Nat) : ItemEnv := ⟨h, h, 1000, 0, none, .ok⟩

/-- An iteration environment at a given hour whose add attempt fails with the
given error message. -/
def envErrAt (h : Nat) (m : String) : ItemEnv := ⟨h, h, 1000, 0, none, .err m⟩

/-- The empty store: no `batches.json` file, no writes yet. -/
def emptyStore : Store := ⟨none, []⟩

/-! ## C2 — circuit-breaker state machine -/

/-- **C2.** From an armed (not tripped) state, `checkCircuitBreaker` blocks
exactly when `consecutiveFailures ≥ failureThreshold`, and tripping sets the
reset time to `now + circuitBreakerTimeout`; from a tripped state with reset
time `t`, it stops blocking exactly when `now` is past `t` — never before —
and that lazy un-trip clears the tripped flag and the reset time and zeroes
`consecutiveFailures`. -/
theorem circuit_breaker_transitions (now : Nat) (s : SessionStats) (st : Store) (t : Nat) :
    (s.circuitBreakerTripped = false →
      (((checkCircuitBreaker now s st).1 = true) ↔
        s.failureThreshold ≤ s.consecutiveFailures) ∧
      (s.failureThreshold ≤ s.consecutiveFailures →
        (checkCircuitBreaker now s st).2.1.circuitBreakerTripped = true ∧
        (checkCircuitBreaker now s st).2.1.circuitBreakerResetTime
          = some (now + s.circuitBreakerTimeout))) ∧
    (s.circuitBreakerTripped = true → s.circuitBreakerResetTime = some t →
      (((checkCircuitBreaker now s st).1 = false) ↔ t < now) ∧
      (t < now →
        (checkCircuitBreaker now s st).2.1.circuitBreakerTripped = false ∧
        (checkCircuitBreaker now s st).2.1.circuitBreakerResetTime = none ∧
        (checkCircuitBreaker now s st).2.1.consecutiveFailures = 0)) := by
  constructor
  · intro harm
    unfold checkCircuitBreaker
    simp only [harm, Bool.false_eq_true, if_false]
    by_cases hth : s.failureThreshold ≤ s.consecutiveFailures
    · simp [hth]
    · simp [hth]
  · intro htr hres
    unfold checkCircuitBreaker resetCircuitBreaker
    simp only [htr, if_true, hres, Option.getD_some]
    by_cases hnow : t < now
    · simp [hnow]
    · simp [hnow]

/-- Witness for C2 at a concrete tripped state: with reset time 50 and
`now = 100`, the check un-trips and zeroes the failure counter. -/
theorem circuit_breaker_transitions_witness :
    (((checkCircuitBreaker 100 { baseStats with
        circuitBreakerTripped := true, circuitBreakerResetTime := some 50,
        consecutiveFailures := 7 } emptyStore).1 = false) ↔ 50 < 100) ∧
    (checkCircuitBreaker 100 { baseStats with
        circuitBreakerTripped := true, circuitBreakerResetTime := some 50,
        consecutiveFailures := 7 } emptyStore).2.1.consecutiveFailures = 0 :=
  ⟨((circuit_breaker_transitions 100 { baseStats with
      circuitBreakerTripped := true, circuitBreakerResetTime := some 50,
      consecutiveFailures := 7 } emptyStore 50).2 rfl rfl).1,
   ((((circuit_breaker_transitions 100 { baseStats with
      circuitBreakerTripped := true, circuitBreakerResetTime := some 50,
      consecutiveFailures := 7 } emptyStore 50).2 rfl rfl).2) (by decide)).2.2⟩

/-! ## C1 — quota invariant of the batch loop -/

/-- The bounds of the claim: daily counter within the daily limit and every
hour's counter within the hourly limit. -/
def QuotaBounds (s : SessionStats) : Prop :=
  s.addedToday ≤ s.dailyLimit ∧
  ∀ h : Nat, s.hourlyAdditionCounts.getD h 0 ≤ s.hourlyLimit

/-- `List.set` then `getD`: the written slot if it exists, else unchanged. -/
theorem getD_set_ite (l : List Nat) (i j a : Nat) :
    (l.set i a).getD j 0 = if i = j ∧ i < l.length then a else l.getD j 0 := by
  induction l generalizing i j with
  | nil => simp
  | cons x xs ih =>
    cases i with
    | zero => cases j <;> simp
    | succ i' =>
      cases j with
      | zero => simp
      | succ j' =>
        simp only [List.set_cons_succ, List.getD_cons_succ, List.length_cons, ih i' j',
          Nat.add_lt_add_iff_right, Nat.succ_eq_add_one, Nat.add_right_cancel_iff]

/-- `checkCircuitBreaker` does not touch the quota fields. -/
theorem checkCircuitBreaker_quota_frame (now : Nat) (s : SessionStats) (st : Store) :
    (checkCircuitBreaker now s st).2.1.addedToday = s.addedToday ∧
    (checkCircuitBreaker now s st).2.1.hourlyAdditionCounts = s.hourlyAdditionCounts ∧
    (checkCircuitBreaker now s st).2.1.dailyLimit = s.dailyLimit ∧
    (checkCircuitBreaker now s st).2.1.hourlyLimit = s.hourlyLimit := by
  unfold checkCircuitBreaker resetCircuitBreaker
  split_ifs <;> simp

/-- The failure handler preserves the quota bounds: it never touches the
quota fields. -/
theorem quota_handleFailure (number msg : String) (now : Nat) (r : ℚ)
    (s : SessionStats) (st : Store) (hb : QuotaBounds s) :
    QuotaBounds (handleFailure number msg now r s st).state := by
  obtain ⟨hd, hh⟩ := hb
  simp only [handleFailure]
  split_ifs <;> exact ⟨hd, fun h => hh h⟩

/-- The circuit-breaker re-check after an item preserves the quota bounds. -/
theorem quota_afterCheck (now : Nat) (s : SessionStats) (res : Results) (st : Store)
    (hb : QuotaBounds s) : QuotaBounds (afterItemBreakerCheck now s res st).state := by
  obtain ⟨h1, h2, h3, h4⟩ := checkCircuitBreaker_quota_frame now s st
  simp only [afterItemBreakerCheck]
  split_ifs <;> simp only [StepOut.state] <;>
    exact ⟨by rw [h1, h3]; exact hb.1, fun h => by rw [h2, h4]; exact hb.2 h⟩

/-- One loop iteration preserves the quota bounds: an addition is only
recorded behind the fresh daily and hourly re-checks. -/
theorem quota_step (num : String) (i : Nat) (env : ItemEnv) (s : SessionStats)
    (res : Results) (st : Store) (hb : QuotaBounds s) :
    QuotaBounds (processItem num i env s res st).state := by
  obtain ⟨hd, hh⟩ := hb
  unfold processItem
  cases env.raises with
  | some m => exact ⟨hd, hh⟩
  | none =>
    by_cases hdl : s.dailyLimit ≤ s.addedToday
    · simp only [if_pos hdl, StepOut.state]
      exact ⟨hd, hh⟩
    · simp only [if_neg hdl]
      by_cases hhl : checkHourlyLimit { s with currentBatchIndex := i } env.hour
      · simp only [if_pos hhl, StepOut.state]
        refine ⟨hd, fun h => ?_⟩
        show (s.hourlyAdditionCounts.set env.newHour 0).getD h 0 ≤ s.hourlyLimit
        rw [getD_set_ite]
        split_ifs with hij
        · exact Nat.zero_le _
        · exact hh h
      · simp only [if_neg hhl]
        cases env.outcome with
        | ok =>
          refine quota_afterCheck _ _ _ _ ⟨?_, fun h => ?_⟩
          · show s.addedToday + 1 ≤ s.dailyLimit
            omega
          · show (s.hourlyAdditionCounts.set env.hour
              (s.hourlyAdditionCounts.getD env.hour 0 + 1)).getD h 0 ≤ s.hourlyLimit
            have hlt : s.hourlyAdditionCounts.getD env.hour 0 < s.hourlyLimit := by
              have := hhl
              unfold checkHourlyLimit at this
              simpa using this
            rw [getD_set_ite]
            split_ifs with hij
            · omega
            · exact hh h
        | err msg =>
          have hbf := quota_handleFailure num msg env.now env.rBan
            { s with currentBatchIndex := i }
            (saveSessionStats { s with currentBatchIndex := i } st) ⟨hd, hh⟩
          dsimp only
          split_ifs <;> simp only [StepOut.state]
          · exact hbf
          · exact quota_afterCheck _ _ _ _ hbf

/-- The whole loop preserves the quota bounds. -/
theorem quota_loop (envf : Nat → ItemEnv) (pending : List String) :
    ∀ (i : Nat) (s : SessionStats) (res : Results) (st : Store), QuotaBounds s →
      QuotaBounds (runLoop envf pending i s res st).state := by
  induction pending with
  | nil => intro i s res st hb; exact hb
  | cons num rest ih =>
    intro i s res st hb
    have hstep := quota_step num i (envf i) s res st hb
    unfold runLoop
    cases hps : processItem num i (envf i) s res st with
    | ret s' res' st' => rw [hps] at hstep; exact hstep
    | next s' res' st' =>
      rw [hps] at hstep
      exact ih (i + 1) s' res' st' hstep

/-- **C1.** Starting from any state satisfying the quota bounds
(`addedToday ≤ dailyLimit` and `hourlyAdditionCounts[h] ≤ hourlyLimit` for
every hour), every iteration of the batch loop — in particular its recorded
additions, attempted only after the fresh `addedToday < dailyLimit` and
`hourlyAdditionCounts[currentHour] < hourlyLimit` re-checks — keeps the
bounds, and hence so does any run of the loop. -/
theorem quota_bounds_invariant :
    (∀ (num : String) (i : Nat) (env : ItemEnv) (s : SessionStats)
       (res : Results) (st : Store),
       QuotaBounds s → QuotaBounds (processItem num i env s res st).state) ∧
    (∀ (envf : Nat → ItemEnv) (pending : List String) (i : Nat)
       (s : SessionStats) (res : Results) (st : Store),
       QuotaBounds s → QuotaBounds (runLoop envf pending i s res st).state) :=
  ⟨fun num i env s res st hb => quota_step num i env s res st hb,
   fun envf pending i s res st hb => quota_loop envf pending i s res st hb⟩

/-- Every slot of a zero-filled hourly array is zero. -/
theorem getD_replicate_zero (n i : Nat) : (List.replicate n 0).getD i 0 = 0 := by
  induction n generalizing i with
  | zero => rfl
  | succ n ih => cases i <;> simp [List.replicate, ih]

/-- Witness for C1 at a concrete state and a concrete successful iteration. -/
theorem quota_bounds_invariant_witness :
    QuotaBounds baseStats ∧
    QuotaBounds (processItem ("15551234001") 0 (envOkAt 10) baseStats
      initResults emptyStore).state :=
  have hb : QuotaBounds baseStats :=
    ⟨by decide, fun h => by
      show (List.replicate 24 0).getD h 0 ≤ 1000
      rw [getD_replicate_zero]
      exact Nat.zero_le _⟩
  ⟨hb, quota_bounds_invariant.1 ("15551234001") 0 (envOkAt 10) baseStats
    initResults emptyStore hb⟩

/-! ## C5 — `isProcessing` released on all exit paths -/

/-- **C5.** Every admitted run clears `isAddingMembers` before returning —
the `finally` block runs on the normal completion path, on every early
partial-result return, and on the path where an unexpected exception inside
the loop is converted into a `success:false` partial result by the outer
catch instead of propagating (second conjunct, at the step level: an
iteration whose body raises yields a returned result, not an exception). -/
theorem isProcessing_released_all_paths :
    (∀ (groupId : String) (numbers : List String) (envf : Nat → ItemEnv)
       (s : SessionStats) (st : Store),
      (runBatchPhase groupId numbers envf s st).state.isAddingMembers = false ∧
      (runBatchPhase groupId numbers envf s st).state.userStatus = ("ready")) ∧
    (∀ (num : String) (i : Nat) (env : ItemEnv) (s : SessionStats)
       (res : Results) (st : Store) (m : String),
      env.raises = some m →
      (processItem num i env s res st).isRet = true ∧
      (processItem num i env s res st).res.success = false ∧
      (processItem num i env s res st).res.message
        = some (("Unexpected error: ") ++ m)) := by
  constructor
  · intro groupId numbers envf s st
    unfold runBatchPhase
    dsimp only
    split_ifs <;> exact ⟨rfl, rfl⟩
  · intro num i env s res st m hr
    unfold processItem
    rw [hr]
    exact ⟨rfl, rfl, rfl⟩

/-- Witness for C5 at a concrete raising iteration and a concrete run. -/
theorem isProcessing_released_witness :
    (runBatchPhase ("123@g.us") [("15551234001")] (fun _ => envOkAt 10)
      baseStats emptyStore).state.isAddingMembers = false ∧
    (processItem ("15551234001") 0 ⟨10, 10, 1000, 0, some ("boom"), .ok⟩
      baseStats initResults emptyStore).res.success = false :=
  ⟨(isProcessing_released_all_paths.1 ("123@g.us") [("15551234001")]
      (fun _ => envOkAt 10) baseStats emptyStore).1,
   (isProcessing_released_all_paths.2 ("15551234001") 0
      ⟨10, 10, 1000, 0, some ("boom"), .ok⟩ baseStats initResults emptyStore
      ("boom") rfl).2.1⟩

/-! ## C7 — sleeps of the per-item failure handling -/

/-- **C7 (amended).** The sleeps of a per-item failure: a non-ban failure
sleeps exactly the `min(60 + 30·consecutiveFailures, 300)` backoff; a
ban-indicative failure that does not exit the batch sleeps the extended
300–600 s cooldown *and then additionally* the same backoff (the two sleeps
are not mutually exclusive); the backoff is skipped only when the ban branch
trips the breaker and returns early. -/
theorem failure_backoff_sleeps (number msg : String) (now : Nat) (r : ℚ)
    (s : SessionStats) (st : Store) :
    (isBanRelated msg = false →
      (handleFailure number msg now r s st).sleeps
        = [.failureBackoff (min (60 + (s.consecutiveFailures + 1) * 30) 300)] ∧
      (handleFailure number msg now r s st).earlyReturn = false) ∧
    (isBanRelated msg = true → s.consecutiveFailures + 1 < 3 →
      (handleFailure number msg now r s st).sleeps
        = [.banCooldown (300 + r * 300),
           .failureBackoff (min (60 + (s.consecutiveFailures + 1) * 30) 300)] ∧
      (handleFailure number msg now r s st).earlyReturn = false) ∧
    (isBanRelated msg = true → 3 ≤ s.consecutiveFailures + 1 →
      (handleFailure number msg now r s st).sleeps = [.banCooldown (300 + r * 300)] ∧
      (handleFailure number msg now r s st).earlyReturn = true) := by
  refine ⟨fun hban => ?_, fun hban hlt => ?_, fun hban hge => ?_⟩
  · simp [handleFailure, hban]
  · have hn : ¬(3 ≤ s.consecutiveFailures + 1) := by omega
    simp [handleFailure, hban, hn]
  · simp [handleFailure, hban, hge]

/-- Counterexample to C7 as stated: a ban-indicative failure
(error text contains `spam`) at one prior consecutive failure performs *both*
sleeps — the extended cooldown and the failure backoff — so the two sleeps
are not mutually exclusive branches. -/
theorem failure_backoff_exclusivity_counterexample :
    isBanRelated ("spam protection triggered") = true ∧
    (handleFailure ("15551234001") ("spam protection triggered") 1000 0
        baseStats emptyStore).sleeps
      = [.banCooldown (300 + 0 * 300), .failureBackoff (min (60 + (0 + 1) * 30) 300)] ∧
    (handleFailure ("15551234001") ("spam protection triggered") 1000 0
        baseStats emptyStore).earlyReturn = false := by
  refine ⟨by decide, rfl, rfl⟩

/-- Witness for the amended C7 at a concrete non-ban failure. -/
theorem failure_backoff_sleeps_witness :
    isBanRelated ("timeout") = false ∧
    (handleFailure ("15551234001") ("timeout") 1000 0 baseStats emptyStore).sleeps
      = [.failureBackoff (min (60 + (0 + 1) * 30) 300)] :=
  ⟨by decide,
   ((failure_backoff_sleeps ("15551234001") ("timeout") 1000 0 baseStats
      emptyStore).1 (by decide)).1⟩

/-! ## C8 — bounds of the smart-delay computation -/

/-- Bounds for the floored product of a base in `[30,90]` and a multiplier in
`[0.7, 2.5)`. -/
theorem floor_mul_bounds (b : ℤ) (m : ℚ) (hb1 : 30 ≤ b) (hb2 : b ≤ 90)
    (hm1 : (7/10 : ℚ) ≤ m) (hm2 : m < 5/2) :
    (21:ℤ) ≤ Int.floor ((b:ℚ) * m) ∧ Int.floor ((b:ℚ) * m) ≤ 224 := by
  have hb1q : (30:ℚ) ≤ (b:ℚ) := by exact_mod_cast hb1
  have hb2q : (b:ℚ) ≤ 90 := by exact_mod_cast hb2
  constructor
  · rw [Int.le_floor]
    push_cast
    nlinarith
  · have hlt : Int.floor ((b:ℚ) * m) < 225 := by
      rw [Int.floor_lt]
      push_cast
      nlinarith
    omega

/-- **C8 (amended).** With `minDelay = 30`, `maxDelay = 90`, no consecutive
failures, the hour outside `[1,4]` and the daily progress not above `0.7`,
every output of the delay computation lies in `[21, 224]` seconds — never
below `floor(30·0.7) = 21`, and reaching up to `floor(90·(1.5+r)) = 224`
under the long pattern-break branch (not `~118` as claimed). -/
theorem smart_delay_bounds (s : SessionStats) (hour : Nat)
    (rBase rPat rBranch rLong : ℚ)
    (hmin : s.minDelay = 30) (hmax : s.maxDelay = 90)
    (hcf : s.consecutiveFailures = 0)
    (hhour : ¬(1 ≤ hour ∧ hour ≤ 4))
    (hprog : (s.addedToday : ℚ) / (s.dailyLimit : ℚ) ≤ 0.7)
    (h1 : 0 ≤ rBase) (h2 : rBase < 1) (h3 : 0 ≤ rLong) (h4 : rLong < 1) :
    (21:ℤ) ≤ getSmartDelaySec s hour rBase rPat rBranch rLong ∧
    getSmartDelaySec s hour rBase rPat rBranch rLong ≤ 224 := by
  have hprog' : ¬((s.addedToday : ℚ) / (s.dailyLimit : ℚ) > 0.7) := by
    exact not_lt.mpr hprog
  have hcf' : ¬(0 < s.consecutiveFailures) := by omega
  unfold getSmartDelaySec
  rw [hmin, hmax]
  have hb1 : (30:ℤ) ≤ Int.floor (rBase * (((90:Nat):ℚ) - ((30:Nat):ℚ) + 1) + ((30:Nat):ℚ)) := by
    rw [Int.le_floor]
    push_cast
    nlinarith
  have hb2 : Int.floor (rBase * (((90:Nat):ℚ) - ((30:Nat):ℚ) + 1) + ((30:Nat):ℚ)) ≤ 90 := by
    have : Int.floor (rBase * (((90:Nat):ℚ) - ((30:Nat):ℚ) + 1) + ((30:Nat):ℚ)) < 91 := by
      rw [Int.floor_lt]
      push_cast
      nlinarith
    omega
  simp only [hhour, if_false, hprog', hcf']
  split_ifs with hpv hpat hbr
  · exact floor_mul_bounds _ _ hb1 hb2 (by nlinarith) (by nlinarith)
  · exact floor_mul_bounds _ _ hb1 hb2 (by norm_num) (by norm_num)
  · exact floor_mul_bounds _ _ hb1 hb2 (by norm_num) (by norm_num)
  · exact floor_mul_bounds _ _ hb1 hb2 (by norm_num) (by norm_num)

/-- Witness for the amended C8 at a concrete draw. -/
theorem smart_delay_bounds_witness :
    (21:ℤ) ≤ getSmartDelaySec baseStats 10 0 1 1 0 ∧
    getSmartDelaySec baseStats 10 0 1 1 0 ≤ 224 :=
  smart_delay_bounds baseStats 10 0 1 1 0 rfl rfl rfl (by omega)
    (by norm_num [baseStats]) (by norm_num) (by norm_num) (by norm_num) (by norm_num)

/-- Counterexample to C8 as stated: with base draw `60/61` (base 90), the
pattern break taken on its long branch with `rLong = 99/100`, the delay is
224 seconds — far above the claimed `~118` upper bound. -/
theorem smart_delay_counterexample :
    getSmartDelaySec baseStats 10 (60/61) 0 0 (99/100) = 224 ∧
    (118:ℤ) < getSmartDelaySec baseStats 10 (60/61) 0 0 (99/100) := by
  have h1 : (Int.floor ((60/61:ℚ) * (((90:Nat):ℚ) - ((30:Nat):ℚ) + 1) + ((30:Nat):ℚ)) : ℤ) = 90 := by
    rw [Int.floor_eq_iff]
    norm_num
  have h2 : getSmartDelaySec baseStats 10 (60/61) 0 0 (99/100) = 224 := by
    simp only [getSmartDelaySec, baseStats]
    norm_num [h1]
  exact ⟨h2, by rw [h2]; norm_num⟩

/-! ## C6 — verification-trust asymmetry -/

/-- A legacy-format id never matches the modern pattern: after the leading
digit run a legacy id continues with `-`, a modern one with `@`. -/
theorem legacy_not_modern (g : String) (h : isLegacyGroupId g = true) :
    isModernGroupId g = false := by
  unfold isLegacyGroupId at h
  simp only [Bool.and_eq_true, beq_iff_eq] at h
  obtain ⟨⟨⟨h1, h2⟩, h3⟩, h4⟩ := h
  cases hdw : g.data.dropWhile Char.isDigit with
  | nil => rw [hdw] at h2; simp at h2
  | cons c rest =>
    rw [hdw] at h2
    simp only [List.head?_cons, Option.some.injEq] at h2
    subst h2
    have hb : ((g.data.dropWhile Char.isDigit) == ("@g.us".data)) = false := by
      rw [hdw]
      rw [beq_eq_false_iff_ne]
      simp only [show ("@g.us".data) = '@' :: ("g.us".data) from rfl]
      intro hcontra
      injection hcontra with hc _
      exact absurd hc (by decide)
    unfold isModernGroupId
    rw [hb, Bool.and_false]

/-- **C6.** When admission reaches the group-verification step and the
verification call fails: a modern-format target bumps `consecutiveFailures`
and the submission proceeds into the admitted phase anyway, whereas a
legacy-format target bumps `consecutiveFailures` and the submission is
rejected with the distinct invalid-group error, the state otherwise
untouched and no items processed. -/
theorem group_verification_asymmetry (env : AdmissionEnv) (envf : Nat → ItemEnv)
    (groupId : String) (numbers : List String) (s : SessionStats) (st : Store)
    (hidle : s.isAddingMembers = false)
    (hday : s.lastDateReset = env.today)
    (htrip : s.circuitBreakerTripped = false)
    (hcf : s.consecutiveFailures < s.failureThreshold)
    (hhour : checkHourlyLimit s env.hour = false)
    (hdaily : s.addedToday < s.dailyLimit)
    (hverify : env.verifyOk = false) :
    (isModernGroupId groupId = true →
      addMembersToGroup env envf groupId numbers s st =
        ⟨.completed (runBatchPhase groupId numbers envf
            { s with consecutiveFailures := s.consecutiveFailures + 1 } st).results,
         (runBatchPhase groupId numbers envf
            { s with consecutiveFailures := s.consecutiveFailures + 1 } st).state,
         (runBatchPhase groupId numbers envf
            { s with consecutiveFailures := s.consecutiveFailures + 1 } st).store⟩) ∧
    (isLegacyGroupId groupId = true →
      addMembersToGroup env envf groupId numbers s st =
        ⟨.rejected ("Invalid group ID or group not found"),
         { s with consecutiveFailures := s.consecutiveFailures + 1 }, st⟩) := by
  have hcb : checkCircuitBreaker env.now s st = (false, s, st) := by
    unfold checkCircuitBreaker
    rw [htrip]
    simp [Nat.not_le.mpr hcf]
  have hdaily' : ¬(s.dailyLimit ≤ s.addedToday) := Nat.not_le.mpr hdaily
  constructor
  · intro hmod
    simp only [addMembersToGroup, admissionAfterDay, hidle, Bool.false_eq_true, if_false,
      hday, ne_eq, not_true_eq_false, hcb, hhour, hdaily', hmod, if_true, hverify]
  · intro hleg
    have hmod := legacy_not_modern groupId hleg
    simp only [addMembersToGroup, admissionAfterDay, hidle, Bool.false_eq_true, if_false,
      hday, ne_eq, not_true_eq_false, hcb, hhour, hdaily', hmod, hverify]

/-- Witness for C6 at a concrete modern id (`123@g.us`) and a concrete
legacy id (`12-34@g.us`), both with a failing verification call. -/
theorem group_verification_asymmetry_witness :
    addMembersToGroup ⟨0, 500, 10, false, true⟩ (fun _ => envOkAt 10)
        ("123@g.us") [] baseStats emptyStore =
      ⟨.completed (runBatchPhase ("123@g.us") [] (fun _ => envOkAt 10)
          { baseStats with consecutiveFailures := 0 + 1 } emptyStore).results,
       (runBatchPhase ("123@g.us") [] (fun _ => envOkAt 10)
          { baseStats with consecutiveFailures := 0 + 1 } emptyStore).state,
       (runBatchPhase ("123@g.us") [] (fun _ => envOkAt 10)
          { baseStats with consecutiveFailures := 0 + 1 } emptyStore).store⟩ ∧
    addMembersToGroup ⟨0, 500, 10, false, true⟩ (fun _ => envOkAt 10)
        ("12-34@g.us") [] baseStats emptyStore =
      ⟨.rejected ("Invalid group ID or group not found"),
       { baseStats with consecutiveFailures := 0 + 1 }, emptyStore⟩ :=
  ⟨(group_verification_asymmetry ⟨0, 500, 10, false, true⟩ (fun _ => envOkAt 10)
      ("123@g.us") [] baseStats emptyStore rfl rfl rfl (by decide) (by decide)
      (by decide) rfl).1 (by decide),
   (group_verification_asymmetry ⟨0, 500, 10, false, true⟩ (fun _ => envOkAt 10)
      ("12-34@g.us") [] baseStats emptyStore rfl rfl rfl (by decide) (by decide)
      (by decide) rfl).2 (by decide)⟩

/-! ## C4 — ban-cascade early exit -/

/-- The failure handler with a ban-indicative error at two or more prior
consecutive failures: trips the breaker with reset time
`now + circuitBreakerTimeout`, persists (the cursor still naming the failed
item), and asks for an early return. -/
theorem handleFailure_trip_facts (number msg : String) (now : Nat) (r : ℚ)
    (s : SessionStats) (st : Store)
    (hban : isBanRelated msg = true) (hcf : 2 ≤ s.consecutiveFailures)
    (hbatch : s.currentBatch.length > 0) :
    (handleFailure number msg now r s st).earlyReturn = true ∧
    (handleFailure number msg now r s st).state.circuitBreakerTripped = true ∧
    (handleFailure number msg now r s st).state.circuitBreakerResetTime
      = some (now + s.circuitBreakerTimeout) ∧
    (handleFailure number msg now r s st).state.currentBatch = s.currentBatch ∧
    (handleFailure number msg now r s st).state.currentBatchIndex
      = s.currentBatchIndex ∧
    (handleFailure number msg now r s st).state.lastGroupId = s.lastGroupId ∧
    (handleFailure number msg now r s st).store.batchFile
      = some ⟨s.currentBatch, s.currentBatchIndex, s.lastGroupId⟩ := by
  have h3 : 3 ≤ s.consecutiveFailures + 1 := by omega
  simp [handleFailure, hban, h3, saveSessionStats, hbatch]

/-- **C4 (amended).** A ban-indicative item failure that brings
`consecutiveFailures` to three or more trips the circuit breaker (reset time
`now + circuitBreakerTimeout`), persists state, and returns immediately with
`success:false`, leaving the remaining items unprocessed — but the persisted
cursor names the failed item itself (index `i`), which is re-attempted on
resumption, not the next unattempted item `i+1`. -/
theorem ban_cascade_early_exit (num : String) (i : Nat) (env : ItemEnv)
    (s : SessionStats) (res : Results) (st : Store) (msg : String)
    (hraise : env.raises = none)
    (hout : env.outcome = .err msg)
    (hban : isBanRelated msg = true)
    (hcf : 2 ≤ s.consecutiveFailures)
    (hdaily : s.addedToday < s.dailyLimit)
    (hhour : checkHourlyLimit s env.hour = false)
    (hbatch : s.currentBatch.length > 0) :
    (processItem num i env s res st).isRet = true ∧
    (processItem num i env s res st).state.circuitBreakerTripped = true ∧
    (processItem num i env s res st).state.circuitBreakerResetTime
      = some (env.now + s.circuitBreakerTimeout) ∧
    (processItem num i env s res st).res.success = false ∧
    (processItem num i env s res st).res.details
      = res.details ++ [⟨num, ("failed"), msg⟩] ∧
    (processItem num i env s res st).store.batchFile
      = some ⟨s.currentBatch, i, s.lastGroupId⟩ ∧
    (∀ (envf : Nat → ItemEnv) (rest : List String), envf i = env →
      runLoop envf (num :: rest) i s res st =
        ⟨false, (processItem num i env s res st).state,
         (processItem num i env s res st).res,
         (processItem num i env s res st).store⟩) := by
  have hdaily' : ¬(s.dailyLimit ≤ s.addedToday) := Nat.not_le.mpr hdaily
  have hhour' : checkHourlyLimit { s with currentBatchIndex := i } env.hour = false := hhour
  obtain ⟨f1, f2, f3, f4, f5, f6, f7⟩ :=
    handleFailure_trip_facts num msg env.now env.rBan { s with currentBatchIndex := i }
      (saveSessionStats { s with currentBatchIndex := i } st) hban hcf hbatch
  have hps : processItem num i env s res st =
      .ret (handleFailure num msg env.now env.rBan { s with currentBatchIndex := i }
              (saveSessionStats { s with currentBatchIndex := i } st)).state
        { res with failed := res.failed + 1,
                   details := res.details ++ [⟨num, ("failed"), msg⟩],
                   success := false,
                   message := some ("Operation paused due to potential ban risk.") }
        (handleFailure num msg env.now env.rBan { s with currentBatchIndex := i }
          (saveSessionStats { s with currentBatchIndex := i } st)).store := by
    unfold processItem
    rw [hraise]
    simp only [hdaily', if_false, hhour', Bool.false_eq_true, hout, f1, if_true]
  refine ⟨by rw [hps]; rfl, ?_, ?_, by rw [hps]; rfl, by rw [hps]; rfl, ?_, ?_⟩
  · rw [hps]; exact f2
  · rw [hps]; exact f3
  · rw [hps]; exact f7
  · intro envf rest henv
    unfold runLoop
    rw [henv, hps]
    rfl

/-- Counterexample to the cursor clause of C4 as stated: with two prior
consecutive failures, a two-item batch whose first item fails with a
ban-indicative error (`spam`) exits early after attempting exactly one item
(the single `failed` detail), so the next unattempted item has index 1 — yet
the persisted batch record carries cursor 0, the index of the failed item. -/
theorem ban_cascade_cursor_counterexample :
    (addMembersToGroup ⟨0, 500, 10, true, true⟩ (fun _ => envErrAt 10 ("spam"))
        ("123@g.us") [("15551234001"), ("15551234002")]
        { baseStats with consecutiveFailures := 2 } emptyStore).outcome
      = .completed ⟨false, 0, 1, 0, [⟨("15551234001"), ("failed"), ("spam")⟩],
          some ("Operation paused due to potential ban risk.")⟩ ∧
    (addMembersToGroup ⟨0, 500, 10, true, true⟩ (fun _ => envErrAt 10 ("spam"))
        ("123@g.us") [("15551234001"), ("15551234002")]
        { baseStats with consecutiveFailures := 2 } emptyStore).store.batchFile
      = some ⟨[("15551234001"), ("15551234002")], 0, none⟩ ∧
    (addMembersToGroup ⟨0, 500, 10, true, true⟩ (fun _ => envErrAt 10 ("spam"))
        ("123@g.us") [("15551234001"), ("15551234002")]
        { baseStats with consecutiveFailures := 2 } emptyStore).state.circuitBreakerTripped
      = true :=
  ⟨by decide, by decide, by decide⟩

/-- Witness for the amended C4 at a concrete iteration. -/
theorem ban_cascade_early_exit_witness :
    (processItem ("15551234001") 0 (envErrAt 10 ("spam"))
        { baseStats with consecutiveFailures := 2,
                         currentBatch := [("15551234001"), ("15551234002")] }
        initResults emptyStore).isRet = true ∧
    (processItem ("15551234001") 0 (envErrAt 10 ("spam"))
        { baseStats with consecutiveFailures := 2,
                         currentBatch := [("15551234001"), ("15551234002")] }
        initResults emptyStore).store.batchFile
      = some ⟨[("15551234001"), ("15551234002")], 0, none⟩ :=
  ⟨(ban_cascade_early_exit ("15551234001") 0 (envErrAt 10 ("spam"))
      { baseStats with consecutiveFailures := 2,
                       currentBatch := [("15551234001"), ("15551234002")] }
      initResults emptyStore ("spam") rfl rfl (by decide) (by decide) (by decide)
      (by decide) (by decide)).1,
   (ban_cascade_early_exit ("15551234001") 0 (envErrAt 10 ("spam"))
      { baseStats with consecutiveFailures := 2,
                       currentBatch := [("15551234001"), ("15551234002")] }
      initResults emptyStore ("spam") rfl rfl (by decide) (by decide) (by decide)
      (by decide) (by decide)).2.2.2.2.2.1⟩

/-! ## C10 — `lastGroupId` is never set to the submitted target -/

/-- All batch records written so far carry the group identifier `g`. -/
def WritesOk (g : Option String) (st : Store) : Prop :=
  ∀ b ∈ st.writes, b.lastGroupId = g

/-- Persisting from a state whose `lastGroupId` is `g` keeps `WritesOk g`. -/
theorem writesOk_save (g : Option String) (s : SessionStats) (st : Store)
    (hg : s.lastGroupId = g) (hw : WritesOk g st) :
    WritesOk g (saveSessionStats s st) := by
  unfold saveSessionStats
  split_ifs
  · intro b hb
    simp only [List.mem_append, List.mem_singleton] at hb
    rcases hb with hb | hb
    · exact hw b hb
    · rw [hb]; exact hg
  · exact hw

/-- `checkCircuitBreaker` keeps `lastGroupId` and `WritesOk`. -/
theorem checkCB_gid_frame (now : Nat) (s : SessionStats) (st : Store)
    (g : Option String) (hg : s.lastGroupId = g) (hw : WritesOk g st) :
    (checkCircuitBreaker now s st).2.1.lastGroupId = g ∧
    WritesOk g (checkCircuitBreaker now s st).2.2 := by
  unfold checkCircuitBreaker resetCircuitBreaker
  split_ifs
  · exact ⟨hg, writesOk_save g _ st hg hw⟩
  · exact ⟨hg, hw⟩
  · exact ⟨hg, writesOk_save g _ st hg hw⟩
  · exact ⟨hg, hw⟩

/-- `handleFailure` keeps `lastGroupId`, `currentBatch` and `WritesOk`. -/
theorem handleFailure_gid_frame (number msg : String) (now : Nat) (r : ℚ)
    (s : SessionStats) (st : Store) (g : Option String)
    (hg : s.lastGroupId = g) (hw : WritesOk g st) :
    (handleFailure number msg now r s st).state.lastGroupId = g ∧
    WritesOk g (handleFailure number msg now r s st).store := by
  simp only [handleFailure]
  split_ifs
  · exact ⟨hg, writesOk_save g _ _ hg (writesOk_save g _ st hg hw)⟩
  · exact ⟨hg, writesOk_save g _ st hg hw⟩
  · exact ⟨hg, writesOk_save g _ st hg hw⟩

/-- The per-item breaker re-check keeps `lastGroupId` and `WritesOk`. -/
theorem afterCheck_gid_frame (now : Nat) (s : SessionStats) (res : Results)
    (st : Store) (g : Option String) (hg : s.lastGroupId = g) (hw : WritesOk g st) :
    (afterItemBreakerCheck now s res st).state.lastGroupId = g ∧
    WritesOk g (afterItemBreakerCheck now s res st).store := by
  obtain ⟨h1, h2⟩ := checkCB_gid_frame now s st g hg hw
  simp only [afterItemBreakerCheck]
  split_ifs <;> simp only [StepOut.state, StepOut.store]
  · exact ⟨h1, writesOk_save g _ _ h1 h2⟩
  · exact ⟨h1, h2⟩

/-- One loop iteration keeps `lastGroupId` and `WritesOk`: no branch of the
loop body writes the submitted target into the stored resumption key. -/
theorem processItem_gid_frame (num : String) (i : Nat) (env : ItemEnv)
    (s : SessionStats) (res : Results) (st : Store) (g : Option String)
    (hg : s.lastGroupId = g) (hw : WritesOk g st) :
    (processItem num i env s res st).state.lastGroupId = g ∧
    WritesOk g (processItem num i env s res st).store := by
  have hw0 : WritesOk g (saveSessionStats { s with currentBatchIndex := i } st) :=
    writesOk_save g _ st hg hw
  unfold processItem
  cases env.raises with
  | some m => exact ⟨hg, hw0⟩
  | none =>
    by_cases hdl : s.dailyLimit ≤ s.addedToday
    · simp only [if_pos hdl, StepOut.state, StepOut.store]
      exact ⟨hg, hw0⟩
    · simp only [if_neg hdl]
      by_cases hhl : checkHourlyLimit { s with currentBatchIndex := i } env.hour
      · simp only [if_pos hhl, StepOut.state, StepOut.store]
        exact ⟨hg, hw0⟩
      · simp only [if_neg hhl]
        cases env.outcome with
        | ok =>
          refine afterCheck_gid_frame _ _ _ _ g hg ?_
          exact writesOk_save g _ _ hg (writesOk_save g _ _ hg hw0)
        | err msg =>
          obtain ⟨h1, h2⟩ := handleFailure_gid_frame num msg env.now env.rBan
            { s with currentBatchIndex := i }
            (saveSessionStats { s with currentBatchIndex := i } st) g hg hw0
          dsimp only
          split_ifs <;> simp only [StepOut.state, StepOut.store]
          · exact ⟨h1, h2⟩
          · exact afterCheck_gid_frame _ _ _ _ g h1 h2

/-- The whole loop keeps `lastGroupId` and `WritesOk`. -/
theorem runLoop_gid_frame (envf : Nat → ItemEnv) (pending : List String) :
    ∀ (i : Nat) (s : SessionStats) (res : Results) (st : Store) (g : Option String),
      s.lastGroupId = g → WritesOk g st →
      (runLoop envf pending i s res st).state.lastGroupId = g ∧
      WritesOk g (runLoop envf pending i s res st).store := by
  induction pending with
  | nil => intro i s res st g hg hw; exact ⟨hg, hw⟩
  | cons num rest ih =>
    intro i s res st g hg hw
    have hstep := processItem_gid_frame num i (envf i) s res st g hg hw
    unfold runLoop
    cases hps : processItem num i (envf i) s res st with
    | ret s' res' st' => rw [hps] at hstep; exact hstep
    | next s' res' st' =>
      rw [hps] at hstep
      exact ih (i + 1) s' res' st' g hstep.1 hstep.2

/-- `initBatchState` never touches `lastGroupId`. -/
theorem initBatchState_gid (groupId : String) (numbers : List String)
    (s : SessionStats) :
    (initBatchState groupId numbers s).lastGroupId = s.lastGroupId := by
  unfold initBatchState
  split_ifs <;> rfl

/-- The admitted phase: its final `lastGroupId` is the pre-existing value or
`null` (completion cleanup), and every batch record it persists carries the
pre-existing value. -/
theorem runBatchPhase_gid (groupId : String) (numbers : List String)
    (envf : Nat → ItemEnv) (s : SessionStats) (st : Store) (g : Option String)
    (hg : s.lastGroupId = g) (hw : WritesOk g st) :
    ((runBatchPhase groupId numbers envf s st).state.lastGroupId = g ∨
     (runBatchPhase groupId numbers envf s st).state.lastGroupId = none) ∧
    WritesOk g (runBatchPhase groupId numbers envf s st).store := by
  have hg2 : (initBatchState groupId numbers
      { s with isAddingMembers := true, userStatus := ("adding") }).lastGroupId = g := by
    rw [initBatchState_gid]; exact hg
  unfold runBatchPhase
  dsimp only
  obtain ⟨l1, l2⟩ := runLoop_gid_frame envf _ _ _ initResults st g hg2 hw
  split_ifs with hcompl hclean
  · exact ⟨Or.inr rfl, l2⟩
  · refine ⟨Or.inl l1, ?_⟩
    exact writesOk_save g _ _ l1 l2
  · refine ⟨Or.inl l1, ?_⟩
    exact writesOk_save g _ _ l1 l2

/-- The admission gates after the day step keep `WritesOk` and leave
`lastGroupId` at its pre-existing value or `null`. -/
theorem admissionAfterDay_gid (env : AdmissionEnv) (envf : Nat → ItemEnv)
    (groupId : String) (numbers : List String) (s : SessionStats) (st : Store)
    (g : Option String) (hg : s.lastGroupId = g) (hw : WritesOk g st) :
    WritesOk g (admissionAfterDay env envf groupId numbers s st).store ∧
    ((admissionAfterDay env envf groupId numbers s st).state.lastGroupId = g ∨
     (admissionAfterDay env envf groupId numbers s st).state.lastGroupId = none) := by
  obtain ⟨c1, c2⟩ := checkCB_gid_frame env.now s st g hg hw
  unfold admissionAfterDay
  dsimp only
  split_ifs
  all_goals
    first
    | exact ⟨c2, Or.inl c1⟩
    | (obtain ⟨r1, r2⟩ := runBatchPhase_gid groupId numbers envf
         (checkCircuitBreaker env.now s st).2.1
         (checkCircuitBreaker env.now s st).2.2 g c1 c2
       exact ⟨r2, r1⟩)
    | (obtain ⟨r1, r2⟩ := runBatchPhase_gid groupId numbers envf
         { (checkCircuitBreaker env.now s st).2.1 with
             consecutiveFailures :=
               (checkCircuitBreaker env.now s st).2.1.consecutiveFailures + 1 }
         (checkCircuitBreaker env.now s st).2.2 g c1 c2
       exact ⟨r2, r1⟩)

/-- **C10.** `addMembersToGroup` never assigns the submitted group identifier
to the stored resumption key: for a fresh submission (stored `lastGroupId`
differing from the target) the resume branch is not taken and the cursor is
initialised to 0; during any call, every batch record persisted carries the
pre-existing `lastGroupId`, and the final `lastGroupId` is the pre-existing
value or `null`; `lastGroupId` becomes a real group identifier only by
loading a persisted batch file. -/
theorem lastGroupId_never_set_to_target :
    (∀ (groupId : String) (numbers : List String) (s : SessionStats),
      s.lastGroupId ≠ some groupId →
      (initBatchState groupId numbers s).currentBatchIndex = 0 ∧
      (initBatchState groupId numbers s).lastGroupId = s.lastGroupId) ∧
    (∀ (env : AdmissionEnv) (envf : Nat → ItemEnv) (groupId : String)
       (numbers : List String) (s : SessionStats) (st : Store),
      WritesOk s.lastGroupId st →
      WritesOk s.lastGroupId (addMembersToGroup env envf groupId numbers s st).store ∧
      ((addMembersToGroup env envf groupId numbers s st).state.lastGroupId
          = s.lastGroupId ∨
       (addMembersToGroup env envf groupId numbers s st).state.lastGroupId = none)) ∧
    (∀ (s : SessionStats) (items : List String) (c : Nat) (gid : Option String),
      items.length > 0 →
      (loadBatchData (some ⟨items, c, gid⟩) s).lastGroupId = gid) := by
  refine ⟨?_, ?_, ?_⟩
  · intro groupId numbers s hne
    unfold initBatchState
    have hcond : ¬(s.currentBatch.length > 0 ∧ s.lastGroupId = some groupId) := by
      intro hand
      exact hne hand.2
    rw [if_neg hcond]
    exact ⟨rfl, rfl⟩
  · intro env envf groupId numbers s st hw
    unfold addMembersToGroup
    cases hbusy : s.isAddingMembers with
    | true =>
      simp only [hbusy, if_true]
      exact ⟨hw, Or.inl trivial⟩
    | false =>
      simp only [hbusy, Bool.false_eq_true, if_false]
      by_cases hday : s.lastDateReset ≠ env.today
      · rw [if_pos hday]
        exact (admissionAfterDay_gid env envf groupId numbers _ _ s.lastGroupId rfl
          (writesOk_save s.lastGroupId _ st rfl hw))
      · rw [if_neg hday]
        exact admissionAfterDay_gid env envf groupId numbers s st s.lastGroupId rfl hw
  · intro s items c gid hlen
    unfold loadBatchData
    dsimp only
    rw [if_pos hlen]

/-- Witness for C10 at a concrete fresh submission. -/
theorem lastGroupId_never_set_to_target_witness :
    (initBatchState ("123@g.us") [("15551234001")] baseStats).currentBatchIndex = 0 ∧
    WritesOk none (addMembersToGroup ⟨0, 500, 10, true, true⟩ (fun _ => envOkAt 10)
      ("123@g.us") [("15551234001")] baseStats emptyStore).store :=
  ⟨(lastGroupId_never_set_to_target.1 ("123@g.us") [("15551234001")] baseStats
      (by decide)).1,
   (lastGroupId_never_set_to_target.2.1 ⟨0, 500, 10, true, true⟩ (fun _ => envOkAt 10)
      ("123@g.us") [("15551234001")] baseStats emptyStore
      (fun b hb => absurd hb (List.not_mem_nil b))).1⟩

/-! ## Loop-run lemmas shared by the resumability and daily-skip claims -/

/-- The detail entry appended for a successful addition. -/
def addedDetail (n : String) : Detail :=
  ⟨n, ("added"), ("Successfully saved contact and added to group")⟩

/-- The detail entry appended for an item skipped by the daily re-check. -/
def skippedDailyDetail (n : String) : Detail :=
  ⟨n, ("skipped"), ("Daily limit reached")⟩

/-- The state right after `updateHourlyCount` on the success path of
iteration `i` at hour `h` (consecutive failures not yet cleared). -/
def midSuccState (s : SessionStats) (i h : Nat) : SessionStats :=
  { s with currentBatchIndex := i,
           addedToday := s.addedToday + 1,
           hourlyAdditionCounts := s.hourlyAdditionCounts.set h
             (s.hourlyAdditionCounts.getD h 0 + 1) }

/-- The state at the end of the success path of iteration `i` at hour `h`. -/
def succState (s : SessionStats) (i h : Nat) : SessionStats :=
  { midSuccState s i h with consecutiveFailures := 0 }

/-- The store at the end of the success path (three persists). -/
def succStore (s : SessionStats) (i h : Nat) (st : Store) : Store :=
  saveSessionStats (succState s i h)
    (saveSessionStats (midSuccState s i h)
      (saveSessionStats { s with currentBatchIndex := i } st))

/-- An armed breaker below threshold passes the check unchanged. -/
theorem checkCircuitBreaker_pass (now : Nat) (s : SessionStats) (st : Store)
    (htrip : s.circuitBreakerTripped = false)
    (hcf : s.consecutiveFailures < s.failureThreshold) :
    checkCircuitBreaker now s st = (false, s, st) := by
  unfold checkCircuitBreaker
  rw [if_neg (by rw [htrip]; simp)]
  rw [if_neg (Nat.not_le.mpr hcf)]

/-- A successful iteration: cursor persisted, counters bumped, consecutive
failures cleared, `added` detail appended, breaker re-check passing. -/
theorem processItem_success_step (num : String) (i : Nat) (env : ItemEnv)
    (s : SessionStats) (res : Results) (st : Store)
    (hraise : env.raises = none) (hout : env.outcome = .ok)
    (hdaily : s.addedToday < s.dailyLimit)
    (hhour : checkHourlyLimit s env.hour = false)
    (htrip : s.circuitBreakerTripped = false)
    (hthr : 0 < s.failureThreshold) :
    processItem num i env s res st =
      .next (succState s i env.hour)
        { res with added := res.added + 1,
                   details := res.details ++ [addedDetail num] }
        (succStore s i env.hour st) := by
  unfold processItem
  rw [hraise]
  dsimp only
  split_ifs with h1 h2
  · exact absurd h1 (Nat.not_le.mpr hdaily)
  · have hh : checkHourlyLimit { s with currentBatchIndex := i } env.hour = false := hhour
    rw [hh] at h2
    simp at h2
  · rw [hout]
    show afterItemBreakerCheck env.now (succState s i env.hour)
        { res with added := res.added + 1,
                   details := res.details ++ [addedDetail num] }
        (saveSessionStats (succState s i env.hour)
          (saveSessionStats (midSuccState s i env.hour)
            (saveSessionStats { s with currentBatchIndex := i } st)))
      = .next (succState s i env.hour)
        { res with added := res.added + 1,
                   details := res.details ++ [addedDetail num] }
        (succStore s i env.hour st)
    have htrip2 : (succState s i env.hour).circuitBreakerTripped = false := htrip
    have hcf2 : (succState s i env.hour).consecutiveFailures
        < (succState s i env.hour).failureThreshold := hthr
    unfold afterItemBreakerCheck
    rw [checkCircuitBreaker_pass env.now (succState s i env.hour) _ htrip2 hcf2]
    rfl

/-- A daily-skipped iteration: cursor persisted, a `skipped` detail appended,
everything else untouched, loop continues. -/
theorem processItem_daily_skip_step (num : String) (i : Nat) (env : ItemEnv)
    (s : SessionStats) (res : Results) (st : Store)
    (hraise : env.raises = none) (hdaily : s.dailyLimit ≤ s.addedToday) :
    processItem num i env s res st =
      .next { s with currentBatchIndex := i }
        { res with skipped := res.skipped + 1,
                   details := res.details ++ [skippedDailyDetail num] }
        (saveSessionStats { s with currentBatchIndex := i } st) := by
  unfold processItem
  rw [hraise]
  dsimp only
  rw [if_pos hdaily]
  rfl

/-- Definitional unfolding of the loop on an empty suffix. -/
theorem runLoop_nil (envf : Nat → ItemEnv) (i : Nat) (s : SessionStats)
    (res : Results) (st : Store) :
    runLoop envf [] i s res st = ⟨true, s, res, st⟩ := rfl

/-- Definitional unfolding of one loop iteration. -/
theorem runLoop_cons (envf : Nat → ItemEnv) (num : String) (rest : List String)
    (i : Nat) (s : SessionStats) (res : Results) (st : Store) :
    runLoop envf (num :: rest) i s res st =
      match processItem num i (envf i) s res st with
      | .ret s' res' st' => ⟨false, s', res', st'⟩
      | .next s' res' st' => runLoop envf rest (i + 1) s' res' st' := rfl

/-- One continuing iteration unfolds the loop by one step. -/
theorem runLoop_cons_next (envf : Nat → ItemEnv) (num : String) (rest : List String)
    (i : Nat) (s : SessionStats) (res : Results) (st : Store)
    (s' : SessionStats) (res' : Results) (st' : Store)
    (hps : processItem num i (envf i) s res st = .next s' res' st') :
    runLoop envf (num :: rest) i s res st = runLoop envf rest (i + 1) s' res' st' := by
  rw [runLoop_cons, hps]

/-- One returning iteration ends the loop early. -/
theorem runLoop_cons_ret (envf : Nat → ItemEnv) (num : String) (rest : List String)
    (i : Nat) (s : SessionStats) (res : Results) (st : Store)
    (s' : SessionStats) (res' : Results) (st' : Store)
    (hps : processItem num i (envf i) s res st = .ret s' res' st') :
    runLoop envf (num :: rest) i s res st = ⟨false, s', res', st'⟩ := by
  rw [runLoop_cons, hps]

/-- Splitting a loop run at a completed prefix. -/
theorem runLoop_append (envf : Nat → ItemEnv) (p1 p2 : List String) :
    ∀ (i : Nat) (s : SessionStats) (res : Results) (st : Store),
      (runLoop envf p1 i s res st).completed = true →
      runLoop envf (p1 ++ p2) i s res st =
        runLoop envf p2 (i + p1.length)
          (runLoop envf p1 i s res st).state
          (runLoop envf p1 i s res st).results
          (runLoop envf p1 i s res st).store := by
  induction p1 with
  | nil =>
    intro i s res st _
    simp [runLoop]
  | cons num rest ih =>
    intro i s res st hc
    cases hps : processItem num i (envf i) s res st with
    | ret s' res' st' =>
      rw [runLoop_cons_ret envf num rest i s res st s' res' st' hps] at hc
      simp at hc
    | next s' res' st' =>
      have hl := runLoop_cons_next envf num rest i s res st s' res' st' hps
      have hl2 := runLoop_cons_next envf num (rest ++ p2) i s res st s' res' st' hps
      rw [hl] at hc
      rw [List.cons_append, hl2, hl]
      have harith : i + (num :: rest).length = (i + 1) + rest.length := by
        simp only [List.length_cons]
        omega
      rw [harith]
      exact ih (i + 1) s' res' st' hc

/-- A run of the loop in which every attempted item succeeds, at one fixed
hour `h` with enough daily and hourly headroom: it completes, adds every
item in order, and leaves the counters advanced by the length. -/
theorem runLoop_all_success (envf : Nat → ItemEnv) (h : Nat) (pending : List String) :
    ∀ (i : Nat) (s : SessionStats) (res : Results) (st : Store),
      (∀ j, j < pending.length → (envf (i + j)).raises = none ∧
            (envf (i + j)).outcome = .ok ∧ (envf (i + j)).hour = h) →
      s.circuitBreakerTripped = false →
      s.consecutiveFailures = 0 →
      0 < s.failureThreshold →
      s.addedToday + pending.length ≤ s.dailyLimit →
      s.hourlyAdditionCounts.getD h 0 + pending.length ≤ s.hourlyLimit →
      h < s.hourlyAdditionCounts.length →
      (runLoop envf pending i s res st).completed = true ∧
      (runLoop envf pending i s res st).results.success = res.success ∧
      (runLoop envf pending i s res st).results.message = res.message ∧
      (runLoop envf pending i s res st).results.added = res.added + pending.length ∧
      (runLoop envf pending i s res st).results.failed = res.failed ∧
      (runLoop envf pending i s res st).results.skipped = res.skipped ∧
      (runLoop envf pending i s res st).results.details
        = res.details ++ pending.map addedDetail ∧
      (runLoop envf pending i s res st).state.addedToday
        = s.addedToday + pending.length ∧
      (runLoop envf pending i s res st).state.dailyLimit = s.dailyLimit ∧
      (runLoop envf pending i s res st).state.circuitBreakerTripped = false ∧
      (runLoop envf pending i s res st).state.consecutiveFailures
        = (if pending.isEmpty then s.consecutiveFailures else 0) ∧
      (runLoop envf pending i s res st).state.failureThreshold = s.failureThreshold ∧
      (runLoop envf pending i s res st).state.currentBatch = s.currentBatch ∧
      (runLoop envf pending i s res st).state.lastGroupId = s.lastGroupId ∧
      (runLoop envf pending i s res st).state.currentBatchIndex
        = (if pending.isEmpty then s.currentBatchIndex else i + pending.length - 1) := by
  induction pending with
  | nil =>
    intro i s res st _ htrip hcf hthr _ _ _
    exact ⟨rfl, rfl, rfl, rfl, rfl, rfl, by simp [runLoop_nil], rfl, rfl, htrip,
      rfl, rfl, rfl, rfl, rfl⟩
  | cons num rest ih =>
    intro i s res st henv htrip hcf hthr hdaily hhq hhlen
    simp only [List.length_cons] at hdaily hhq
    obtain ⟨hr0, ho0, hh0⟩ := by
      have h0 := henv 0 (by simp)
      rwa [Nat.add_zero] at h0
    have hstep := processItem_success_step num i (envf i) s res st hr0 ho0
      (by omega)
      (by rw [hh0]; unfold checkHourlyLimit; simp only [decide_eq_false_iff_not]; omega)
      htrip hthr
    rw [hh0] at hstep
    rw [runLoop_cons_next envf num rest i s res st _ _ _ hstep]
    have hgetN : (succState s i h).hourlyAdditionCounts.getD h 0
        = s.hourlyAdditionCounts.getD h 0 + 1 := by
      show (s.hourlyAdditionCounts.set h (s.hourlyAdditionCounts.getD h 0 + 1)).getD h 0 = _
      rw [getD_set_ite]
      rw [if_pos ⟨rfl, hhlen⟩]
    have hlenN : h < (succState s i h).hourlyAdditionCounts.length := by
      show h < (s.hourlyAdditionCounts.set h _).length
      rw [List.length_set]
      exact hhlen
    have hih := ih (i + 1) (succState s i h)
      { res with added := res.added + 1, details := res.details ++ [addedDetail num] }
      (succStore s i h st)
      (by
        intro j hj
        have hj1 := henv (j + 1) (by simp only [List.length_cons]; omega)
        have harith : i + (j + 1) = i + 1 + j := by omega
        rwa [harith] at hj1)
      htrip rfl hthr
      (by
        show s.addedToday + 1 + rest.length ≤ s.dailyLimit
        omega)
      (by
        show (succState s i h).hourlyAdditionCounts.getD h 0 + rest.length
          ≤ s.hourlyLimit
        rw [hgetN]
        omega)
      hlenN
    obtain ⟨c1, c2, c3, c4, c5, c6, c7, c8, c9, c10, c11, c12, c13, c14, c15⟩ := hih
    refine ⟨c1, c2, c3, ?_, c5, c6, ?_, ?_, c9, c10, ?_, c12, c13, c14, ?_⟩
    · rw [c4]
      show res.added + 1 + rest.length = res.added + (rest.length + 1)
      omega
    · rw [c7]
      show (res.details ++ [addedDetail num]) ++ rest.map addedDetail
        = res.details ++ (num :: rest).map addedDetail
      simp
    · rw [c8]
      show s.addedToday + 1 + rest.length = s.addedToday + (num :: rest).length
      simp only [List.length_cons]
      omega
    · rw [c11]
      cases rest with
      | nil => simp [succState, midSuccState]
      | cons a b => simp
    · rw [c15]
      cases rest with
      | nil => simp [succState, midSuccState]
      | cons a b =>
        simp only [List.isEmpty_cons, Bool.false_eq_true, if_false, List.length_cons]
        omega

/-- A run of the loop from a state whose daily quota is exhausted: every
remaining item is skipped with a `Daily limit reached` detail, in order, and
nothing else changes. -/
theorem runLoop_all_daily_skipped (envf : Nat → ItemEnv) (pending : List String) :
    ∀ (i : Nat) (s : SessionStats) (res : Results) (st : Store),
      (∀ j, j < pending.length → (envf (i + j)).raises = none) →
      s.dailyLimit ≤ s.addedToday →
      (runLoop envf pending i s res st).completed = true ∧
      (runLoop envf pending i s res st).results.success = res.success ∧
      (runLoop envf pending i s res st).results.message = res.message ∧
      (runLoop envf pending i s res st).results.added = res.added ∧
      (runLoop envf pending i s res st).results.failed = res.failed ∧
      (runLoop envf pending i s res st).results.skipped
        = res.skipped + pending.length ∧
      (runLoop envf pending i s res st).results.details
        = res.details ++ pending.map skippedDailyDetail ∧
      (runLoop envf pending i s res st).state.currentBatch = s.currentBatch ∧
      (runLoop envf pending i s res st).state.lastGroupId = s.lastGroupId ∧
      (runLoop envf pending i s res st).state.currentBatchIndex
        = (if pending.isEmpty then s.currentBatchIndex else i + pending.length - 1) := by
  induction pending with
  | nil =>
    intro i s res st _ _
    exact ⟨rfl, rfl, rfl, rfl, rfl, rfl, by simp [runLoop_nil], rfl, rfl, rfl⟩
  | cons num rest ih =>
    intro i s res st henv hdaily
    obtain hr0 := by
      have h0 := henv 0 (by simp)
      rwa [Nat.add_zero] at h0
    have hstep := processItem_daily_skip_step num i (envf i) s res st hr0 hdaily
    rw [runLoop_cons_next envf num rest i s res st _ _ _ hstep]
    have hih := ih (i + 1) { s with currentBatchIndex := i }
      { res with skipped := res.skipped + 1,
                 details := res.details ++ [skippedDailyDetail num] }
      (saveSessionStats { s with currentBatchIndex := i } st)
      (by
        intro j hj
        have hj1 := henv (j + 1) (by simp only [List.length_cons]; omega)
        have harith : i + (j + 1) = i + 1 + j := by omega
        rwa [harith] at hj1)
      hdaily
    obtain ⟨c1, c2, c3, c4, c5, c6, c7, c8, c9, c10⟩ := hih
    refine ⟨c1, c2, c3, c4, c5, ?_, ?_, c8, c9, ?_⟩
    · rw [c6]
      show res.skipped + 1 + rest.length = res.skipped + (num :: rest).length
      simp only [List.length_cons]
      omega
    · rw [c7]
      show (res.details ++ [skippedDailyDetail num]) ++ rest.map skippedDailyDetail
        = res.details ++ (num :: rest).map skippedDailyDetail
      simp
    · rw [c10]
      cases rest with
      | nil => simp
      | cons a b =>
        simp only [List.isEmpty_cons, Bool.false_eq_true, if_false, List.length_cons]
        omega

/-- Equality of results objects from equality of all fields. -/
theorem Results.ext_eq (r1 r2 : Results)
    (h1 : r1.success = r2.success) (h2 : r1.added = r2.added)
    (h3 : r1.failed = r2.failed) (h4 : r1.skipped = r2.skipped)
    (h5 : r1.details = r2.details) (h6 : r1.message = r2.message) : r1 = r2 := by
  cases r1
  cases r2
  simp_all

/-- An admission that passes every gate, for a modern-format target with a
succeeding verification, reduces the call to the admitted phase. -/
theorem addMembers_admitted (env : AdmissionEnv) (envf : Nat → ItemEnv)
    (groupId : String) (numbers : List String) (s : SessionStats) (st : Store)
    (hidle : s.isAddingMembers = false)
    (hday : s.lastDateReset = env.today)
    (htrip : s.circuitBreakerTripped = false)
    (hcf : s.consecutiveFailures < s.failureThreshold)
    (hhour : checkHourlyLimit s env.hour = false)
    (hdaily : s.addedToday < s.dailyLimit)
    (hmod : isModernGroupId groupId = true)
    (hver : env.verifyOk = true) :
    addMembersToGroup env envf groupId numbers s st =
      ⟨.completed (runBatchPhase groupId numbers envf s st).results,
       (runBatchPhase groupId numbers envf s st).state,
       (runBatchPhase groupId numbers envf s st).store⟩ := by
  have hcb := checkCircuitBreaker_pass env.now s st htrip hcf
  have hdaily' : ¬(s.dailyLimit ≤ s.addedToday) := Nat.not_le.mpr hdaily
  simp only [addMembersToGroup, admissionAfterDay, hidle, Bool.false_eq_true, if_false,
    hday, ne_eq, not_true_eq_false, hcb, hhour, hdaily', hmod, hver, if_true]

/-! ## C3 — resumability -/

/-- **C3.** A resubmission of the same group with a non-empty stored batch
`{items, cursor c}` with `0 < c < len(items)` — the admission gates passing
and every attempted add succeeding — processes exactly `items[c ..]`: the
result details name exactly the suffix, the counts cover only the suffix,
and on completion the persisted batch record is deleted and the in-memory
batch, cursor and stored group identifier are cleared. -/
theorem resume_processes_suffix (env : AdmissionEnv) (envf : Nat → ItemEnv)
    (groupId : String) (items : List String) (c : Nat) (h : Nat)
    (s : SessionStats) (st : Store)
    (hc : 0 < c) (hclen : c < items.length)
    (hbatch : s.currentBatch = items) (hcur : s.currentBatchIndex = c)
    (hgid : s.lastGroupId = some groupId)
    (hidle : s.isAddingMembers = false)
    (hday : s.lastDateReset = env.today)
    (htrip : s.circuitBreakerTripped = false)
    (hcf : s.consecutiveFailures = 0)
    (hthr : 0 < s.failureThreshold)
    (hhour : checkHourlyLimit s env.hour = false)
    (hmod : isModernGroupId groupId = true)
    (hver : env.verifyOk = true)
    (henv : ∀ j, j < items.length - c → (envf (c + j)).raises = none ∧
            (envf (c + j)).outcome = .ok ∧ (envf (c + j)).hour = h)
    (hquota : s.addedToday + (items.length - c) ≤ s.dailyLimit)
    (hhq : s.hourlyAdditionCounts.getD h 0 + (items.length - c) ≤ s.hourlyLimit)
    (hhlen : h < s.hourlyAdditionCounts.length) :
    (addMembersToGroup env envf groupId items s st).outcome
      = .completed ⟨true, items.length - c, 0, 0,
          (items.drop c).map addedDetail, none⟩ ∧
    (addMembersToGroup env envf groupId items s st).state.currentBatch = [] ∧
    (addMembersToGroup env envf groupId items s st).state.currentBatchIndex = 0 ∧
    (addMembersToGroup env envf groupId items s st).state.lastGroupId = none ∧
    (addMembersToGroup env envf groupId items s st).store.batchFile = none := by
  have hlendrop : (items.drop c).length = items.length - c := List.length_drop c items
  have hdaily0 : s.addedToday < s.dailyLimit := by omega
  rw [addMembers_admitted env envf groupId items s st hidle hday htrip (by omega)
    hhour hdaily0 hmod hver]
  have hinit : initBatchState groupId items
      { s with isAddingMembers := true, userStatus := ("adding") } =
      { s with isAddingMembers := true, userStatus := ("adding"),
               currentBatch := items } := by
    unfold initBatchState
    rw [if_pos]
    constructor
    · show s.currentBatch.length > 0
      rw [hbatch]
      omega
    · exact hgid
  unfold runBatchPhase
  dsimp only
  rw [hinit]
  dsimp only
  rw [hcur]
  obtain ⟨c1, c2, c3, c4, c5, c6, c7, c8, c9, c10, c11, c12, c13, c14, c15⟩ :=
    runLoop_all_success envf h (items.drop c) c
      { s with isAddingMembers := true, userStatus := ("adding"),
               currentBatch := items, currentBatchIndex := c }
      initResults st
      (by
        intro j hj
        rw [hlendrop] at hj
        exact henv j hj)
      htrip hcf hthr
      (by
        show s.addedToday + (items.drop c).length ≤ s.dailyLimit
        omega)
      (by
        show s.hourlyAdditionCounts.getD h 0 + (items.drop c).length ≤ s.hourlyLimit
        omega)
      hhlen
  have hie : (items.drop c).isEmpty = false := by
    cases hdd : items.drop c with
    | nil =>
      have hcontra := congrArg List.length hdd
      rw [hlendrop] at hcontra
      simp at hcontra
      omega
    | cons a l => rfl
  rw [hie] at c11 c15
  simp only [if_false, Bool.false_eq_true] at c11 c15
  have hres : (runLoop envf (items.drop c) c
      { s with isAddingMembers := true, userStatus := ("adding"),
               currentBatch := items, currentBatchIndex := c } initResults st).results =
      ⟨true, items.length - c, 0, 0, (items.drop c).map addedDetail, none⟩ := by
    refine Results.ext_eq _ _ ?_ ?_ ?_ ?_ ?_ ?_
    · rw [c2]; rfl
    · rw [c4, hlendrop]; simp [initResults]
    · rw [c5]; rfl
    · rw [c6]; rfl
    · rw [c7]; rfl
    · rw [c3]; rfl
  rw [c1]
  simp only [if_true]
  rw [if_pos]
  · refine ⟨?_, rfl, rfl, rfl, rfl⟩
    simp only [finallyStep]
    rw [hres]
  · constructor
    · show (runLoop envf (items.drop c) c _ initResults st).state.currentBatch.length > 0
      rw [c13]
      show items.length > 0
      omega
    · rw [c13, c15, hlendrop]
      show items.length - 1 ≤ c + (items.length - c) - 1
      omega

/-- Witness for C3: a four-item stored batch at cursor 2 resumes, adds only
the last two items, and deletes the persisted record. -/
theorem resume_processes_suffix_witness :
    (addMembersToGroup ⟨0, 500, 10, true, true⟩ (fun _ => envOkAt 10) ("123@g.us")
        [("15551234001"), ("15551234002"), ("15551234003"), ("15551234004")]
        { baseStats with
            currentBatch := [("15551234001"), ("15551234002"), ("15551234003"),
              ("15551234004")],
            currentBatchIndex := 2,
            lastGroupId := some ("123@g.us") }
        emptyStore).outcome
      = .completed ⟨true,
          ([("15551234001"), ("15551234002"), ("15551234003"), ("15551234004")] :
            List String).length - 2, 0, 0,
          (([("15551234001"), ("15551234002"), ("15551234003"), ("15551234004")] :
            List String).drop 2).map addedDetail, none⟩ ∧
    (addMembersToGroup ⟨0, 500, 10, true, true⟩ (fun _ => envOkAt 10) ("123@g.us")
        [("15551234001"), ("15551234002"), ("15551234003"), ("15551234004")]
        { baseStats with
            currentBatch := [("15551234001"), ("15551234002"), ("15551234003"),
              ("15551234004")],
            currentBatchIndex := 2,
            lastGroupId := some ("123@g.us") }
        emptyStore).store.batchFile = none :=
  ⟨(resume_processes_suffix ⟨0, 500, 10, true, true⟩ (fun _ => envOkAt 10) ("123@g.us")
      [("15551234001"), ("15551234002"), ("15551234003"), ("15551234004")] 2 10
      { baseStats with
          currentBatch := [("15551234001"), ("15551234002"), ("15551234003"),
            ("15551234004")],
          currentBatchIndex := 2,
          lastGroupId := some ("123@g.us") }
      emptyStore (by decide) (by decide) rfl rfl rfl rfl rfl rfl rfl (by decide)
      (by decide) (by decide) rfl (fun j hj => ⟨rfl, rfl, rfl⟩) (by decide) (by decide)
      (by decide)).1,
   (resume_processes_suffix ⟨0, 500, 10, true, true⟩ (fun _ => envOkAt 10) ("123@g.us")
      [("15551234001"), ("15551234002"), ("15551234003"), ("15551234004")] 2 10
      { baseStats with
          currentBatch := [("15551234001"), ("15551234002"), ("15551234003"),
            ("15551234004")],
          currentBatchIndex := 2,
          lastGroupId := some ("123@g.us") }
      emptyStore (by decide) (by decide) rfl rfl rfl rfl rfl rfl rfl (by decide)
      (by decide) (by decide) rfl (fun j hj => ⟨rfl, rfl, rfl⟩) (by decide) (by decide)
      (by decide)).2.2.2.2⟩

/-! ## C9 — mid-batch daily-limit exhaustion -/

/-- **C9.** If `dailyLimit − addedToday = 5` at admission and a fresh batch
of 7 items is submitted in which every attempted add succeeds, the result
reports `added = 5`, `failed = 0`, `skipped = 2`, and the two skipped entries
are exactly the 6th and 7th items in original order: mid-batch daily-limit
exhaustion marks each remaining item skipped and continues the loop. -/
theorem daily_limit_skip_scenario (env : AdmissionEnv) (envf : Nat → ItemEnv)
    (groupId : String) (n0 n1 n2 n3 n4 n5 n6 : String) (h : Nat)
    (s : SessionStats) (st : Store)
    (hfresh : s.currentBatch = [])
    (hidle : s.isAddingMembers = false)
    (hday : s.lastDateReset = env.today)
    (htrip : s.circuitBreakerTripped = false)
    (hcf : s.consecutiveFailures = 0)
    (hthr : 0 < s.failureThreshold)
    (hhour : checkHourlyLimit s env.hour = false)
    (hmod : isModernGroupId groupId = true)
    (hver : env.verifyOk = true)
    (hdl : s.dailyLimit = s.addedToday + 5)
    (henv : ∀ j, j < 7 → (envf j).raises = none ∧ (envf j).outcome = .ok ∧
            (envf j).hour = h)
    (hhq : s.hourlyAdditionCounts.getD h 0 + 5 ≤ s.hourlyLimit)
    (hhlen : h < s.hourlyAdditionCounts.length) :
    (addMembersToGroup env envf groupId [n0, n1, n2, n3, n4, n5, n6] s st).outcome
      = .completed ⟨true, 5, 0, 2,
          [addedDetail n0, addedDetail n1, addedDetail n2, addedDetail n3,
           addedDetail n4, skippedDailyDetail n5, skippedDailyDetail n6], none⟩ := by
  have hdaily0 : s.addedToday < s.dailyLimit := by omega
  rw [addMembers_admitted env envf groupId [n0, n1, n2, n3, n4, n5, n6] s st hidle hday
    htrip (by omega) hhour hdaily0 hmod hver]
  have hinit : initBatchState groupId [n0, n1, n2, n3, n4, n5, n6]
      { s with isAddingMembers := true, userStatus := ("adding") } =
      { s with isAddingMembers := true, userStatus := ("adding"),
               currentBatch := [n0, n1, n2, n3, n4, n5, n6],
               currentBatchIndex := 0 } := by
    unfold initBatchState
    rw [if_neg]
    intro hand
    have hlen := hand.1
    have hlen2 : s.currentBatch.length > 0 := hlen
    rw [hfresh] at hlen2
    simp at hlen2
  unfold runBatchPhase
  dsimp only
  rw [hinit]
  dsimp only
  rw [List.drop_zero]
  rw [show ([n0, n1, n2, n3, n4, n5, n6] : List String)
      = [n0, n1, n2, n3, n4] ++ [n5, n6] from rfl]
  obtain ⟨a1, a2, a3, a4, a5, a6, a7, a8, a9, a10, a11, a12, a13, a14, a15⟩ :=
    runLoop_all_success envf h [n0, n1, n2, n3, n4] 0
      { s with isAddingMembers := true, userStatus := ("adding"),
               currentBatch := [n0, n1, n2, n3, n4] ++ [n5, n6],
               currentBatchIndex := 0 }
      initResults st
      (by
        intro j hj
        simp only [List.length_cons, List.length_nil] at hj
        have hz : 0 + j = j := Nat.zero_add j
        rw [hz]
        exact henv j (by omega))
      htrip hcf hthr
      (by
        show s.addedToday + ([n0, n1, n2, n3, n4] : List String).length ≤ s.dailyLimit
        simp only [List.length_cons, List.length_nil]
        omega)
      (by
        show s.hourlyAdditionCounts.getD h 0
          + ([n0, n1, n2, n3, n4] : List String).length ≤ s.hourlyLimit
        simp only [List.length_cons, List.length_nil]
        omega)
      hhlen
  rw [runLoop_append envf [n0, n1, n2, n3, n4] [n5, n6] 0 _ initResults st a1]
  obtain ⟨b1, b2, b3, b4, b5, b6, b7, b8, b9, b10⟩ :=
    runLoop_all_daily_skipped envf [n5, n6]
      (0 + ([n0, n1, n2, n3, n4] : List String).length)
      (runLoop envf [n0, n1, n2, n3, n4] 0
        { s with isAddingMembers := true, userStatus := ("adding"),
                 currentBatch := [n0, n1, n2, n3, n4] ++ [n5, n6],
                 currentBatchIndex := 0 }
        initResults st).state
      (runLoop envf [n0, n1, n2, n3, n4] 0
        { s with isAddingMembers := true, userStatus := ("adding"),
                 currentBatch := [n0, n1, n2, n3, n4] ++ [n5, n6],
                 currentBatchIndex := 0 }
        initResults st).results
      (runLoop envf [n0, n1, n2, n3, n4] 0
        { s with isAddingMembers := true, userStatus := ("adding"),
                 currentBatch := [n0, n1, n2, n3, n4] ++ [n5, n6],
                 currentBatchIndex := 0 }
        initResults st).store
      (by
        intro j hj
        simp only [List.length_cons, List.length_nil] at hj
        have hz : 0 + ([n0, n1, n2, n3, n4] : List String).length + j = 5 + j := by
          simp only [List.length_cons, List.length_nil]
        rw [hz]
        exact (henv (5 + j) (by omega)).1)
      (by
        rw [a9, a8]
        simp only [List.length_cons, List.length_nil]
        omega)
  have hres : (runLoop envf [n5, n6]
      (0 + ([n0, n1, n2, n3, n4] : List String).length)
      (runLoop envf [n0, n1, n2, n3, n4] 0
        { s with isAddingMembers := true, userStatus := ("adding"),
                 currentBatch := [n0, n1, n2, n3, n4] ++ [n5, n6],
                 currentBatchIndex := 0 }
        initResults st).state
      (runLoop envf [n0, n1, n2, n3, n4] 0
        { s with isAddingMembers := true, userStatus := ("adding"),
                 currentBatch := [n0, n1, n2, n3, n4] ++ [n5, n6],
                 currentBatchIndex := 0 }
        initResults st).results
      (runLoop envf [n0, n1, n2, n3, n4] 0
        { s with isAddingMembers := true, userStatus := ("adding"),
                 currentBatch := [n0, n1, n2, n3, n4] ++ [n5, n6],
                 currentBatchIndex := 0 }
        initResults st).store).results =
      ⟨true, 5, 0, 2,
        [addedDetail n0, addedDetail n1, addedDetail n2, addedDetail n3,
         addedDetail n4, skippedDailyDetail n5, skippedDailyDetail n6], none⟩ := by
    refine Results.ext_eq _ _ ?_ ?_ ?_ ?_ ?_ ?_
    · rw [b2, a2]; rfl
    · rw [b4, a4]; simp [initResults]
    · rw [b5, a5]; rfl
    · rw [b6, a6]; simp [initResults]
    · rw [b7, a7]; simp [initResults]
    · rw [b3, a3]; rfl
  rw [b1]
  simp only [if_true]
  rw [if_pos]
  · simp only [finallyStep]
    rw [hres]
  · constructor
    · rw [b8, a13]
      show ([n0, n1, n2, n3, n4] ++ [n5, n6] : List String).length > 0
      simp
    · rw [b8, a13, b10]
      simp only [List.isEmpty_cons, Bool.false_eq_true, if_false, List.length_append,
        List.length_cons, List.length_nil]
      omega

/-- Witness for C9: five of seven items added, the 6th and 7th skipped. -/
theorem daily_limit_skip_scenario_witness :
    (addMembersToGroup ⟨0, 500, 10, true, true⟩ (fun _ => envOkAt 10) ("123@g.us")
        [("15551234001"), ("15551234002"), ("15551234003"), ("15551234004"),
         ("15551234005"), ("15551234006"), ("15551234007")]
        { baseStats with dailyLimit := 5 } emptyStore).outcome
      = .completed ⟨true, 5, 0, 2,
          [addedDetail ("15551234001"), addedDetail ("15551234002"),
           addedDetail ("15551234003"), addedDetail ("15551234004"),
           addedDetail ("15551234005"), skippedDailyDetail ("15551234006"),
           skippedDailyDetail ("15551234007")], none⟩ :=
  daily_limit_skip_scenario ⟨0, 500, 10, true, true⟩ (fun _ => envOkAt 10)
    ("123@g.us") ("15551234001") ("15551234002") ("15551234003") ("15551234004")
    ("15551234005") ("15551234006") ("15551234007") 10
    { baseStats with dailyLimit := 5 } emptyStore
    rfl rfl rfl rfl rfl (by decide) (by decide) (by decide) rfl rfl
    (fun j hj => ⟨rfl, rfl, rfl⟩) (by decide) (by decide)

end WhatsAppGM
